import Mathlib

/-!
Verification development for `metadata_parse.py`, the streaming aggregation
engine of the `autonomy_meta_data` repository.

The embedding below translates the aggregation core of `parse` (and the
helpers it calls) into Lean:

* Python floats are modelled as exact rationals (`ℚ`); all the arithmetic the
  claims speak about (sums of `dt`, accumulator comparisons, OLS slopes over
  rationals) is therefore exact.
* `np.sqrt` is not expressible over `ℚ`, so the whole engine is parametrised
  by a function `sqrt : ℚ → ℚ`; theorems that need a fact about it assume only
  what `np.sqrt` satisfies on the nonnegative inputs it receives here
  (nonnegativity of the result).
* One raw log line `<offset_ms>\t<level>\t<json>` enters the engine as its
  time offset together with the result of `json.loads` on its payload: either
  the decoded top-level object (its key/value pairs in document order) or a
  decode failure carrying the raw payload text.  The tab splitting, the
  filename-pattern check and the plotting code are I/O glue outside the
  aggregation engine; the Series Store (`meta_data`) is the output artifact.
* Uncaught Python exceptions (`KeyError` on a missing `"type"` key, a
  non-string `home_pose` payload, and so on) are modelled by the error value
  `PyErr.uncaught`; `ValueError` from `json.loads` (re-raised by `parse`) is
  `PyErr.malformedPayload` with the raw payload, and the `ValueError` raised
  by `dist` on unequal lengths is `PyErr.dimensionMismatch`.  (`float()` of a
  numeric string, which Python would accept for a sensor payload, is modelled
  as an error as well; no claim exercises that corner.)
-/

/-- Module-level constant `_TIME_STEP = 10` (seconds). -/
def TIME_STEP : ℚ := 10

/-- Module-level constant `_EC_IN_WATER_CUTOFF = 100`. -/
def EC_IN_WATER_CUTOFF : ℚ := 100

/-- Module-level constant `_DANGER_VOLTAGE = 14`. -/
def DANGER_VOLTAGE : ℚ := 14

/-- Module-level constant `_VOLTAGE_MEDIAN_WINDOW = 500`. -/
def VOLTAGE_MEDIAN_WINDOW : ℕ := 500

/-- Module-level constant `_VELOCITY_WINDOW = 50`. -/
def VELOCITY_WINDOW : ℕ := 50

/-- A JSON value as decoded by `json.loads`. -/
inductive JVal where
  | bool (b : Bool)
  | str (s : String)
  | num (q : ℚ)
  | arr (elems : List JVal)
  | obj (fields : List (String × JVal))
  | null

/-- The ways the reference `parse` can abort. -/
inductive PyErr where
  | malformedPayload (raw : String)
  | dimensionMismatch
  | uncaught
  deriving Repr, DecidableEq

/-- Python `v == "t"` for a JSON-decoded value `v` and a string literal `t`:
only an equal string compares equal (in particular `True == "true"` is
`False` in Python). -/
def jvalEqStr : JVal → String → Bool
  | .str s, t => s = t
  | _, _ => false

/-- Python `v > c` for a JSON-decoded value against a numeric cutoff.
Booleans compare as 0/1 (Python `bool` is an `int` subclass); a string or a
structured value raises `TypeError`, which nothing catches. -/
def pyGtNum : JVal → ℚ → Except PyErr Bool
  | .num q, c => .ok (decide (q > c))
  | .bool b, c => .ok (decide ((if b then (1 : ℚ) else 0) > c))
  | _, _ => .error .uncaught

/-- Python `float(v)` for a JSON-decoded value: numbers convert exactly,
booleans to 0/1.  Anything else is modelled as an error (Python would accept
a numeric string and raise on other values; no claim exercises strings
here). -/
def pyFloat : JVal → Except PyErr ℚ
  | .num q => .ok q
  | .bool b => .ok (if b then 1 else 0)
  | _ => .error .uncaught

/-- The function `dist(a, b)`: raises `ValueError` when the collections have
different lengths, otherwise `sqrt` of the sum of squared coordinate
differences. -/
def dist (sqrt : ℚ → ℚ) (a b : List ℚ) : Except PyErr ℚ :=
  if a.length ≠ b.length then .error .dimensionMismatch
  else .ok (sqrt (((a.zip b).map fun p => (p.1 - p.2) * (p.1 - p.2)).sum))

/-- Insertion of one value into an ascending list (helper for `median`). -/
def insertAsc (x : ℚ) : List ℚ → List ℚ
  | [] => [x]
  | y :: ys => if x ≤ y then x :: y :: ys else y :: insertAsc x ys

/-- Ascending sort (the sorted arrangement of a multiset of rationals is
unique, so this agrees with the sort inside `np.median`). -/
def sortAsc (l : List ℚ) : List ℚ := l.foldr insertAsc []

/-- The value `np.median(l)`: middle element of the sorted list for odd
length, mean of the two middle elements for even length.  (`np.median` of an
empty array is NaN; the engine only takes medians of the 500-slot voltage
window.) -/
def median (l : List ℚ) : ℚ :=
  let s := sortAsc l
  let n := l.length
  if n = 0 then 0
  else if n % 2 = 1 then s.getD (n / 2) 0
  else (s.getD (n / 2 - 1) 0 + s.getD (n / 2) 0) / 2

/-- Slope of the least-squares fit `value = slope * time + intercept`, the
first component of `np.linalg.lstsq(A, values)[0]` for the design matrix
`A = [times, 1]`, in normal-equations closed form.  When the system is
degenerate (all times equal, zero denominator) this returns 0; `np` would
return a minimum-norm solution there, and no claim exercises that case. -/
def olsSlope (ts vs : List ℚ) : ℚ :=
  let n : ℚ := ts.length
  let st := ts.sum
  let sv := vs.sum
  let stv := ((ts.zip vs).map fun p => p.1 * p.2).sum
  let stt := (ts.map fun t => t * t).sum
  let d := n * stt - st * st
  if d = 0 then 0 else (n * stv - st * sv) / d

/-- Matches the regex `[-+]?[0-9]*\.?[0-9]+` at the head of `cs` with
Python's greedy-backtracking semantics: returns the matched characters and
the remainder.  An optional sign, then the maximal digit run; if a dot
followed by at least one digit comes next the match extends over the dot and
the maximal digit run after it, otherwise the match is the (nonempty) digit
run alone; with no leading digits a dot followed by digits is required. -/
def matchFloatHere (cs : List Char) : Option (List Char × List Char) :=
  let sgn := match cs with
    | c :: rest => if c = '-' ∨ c = '+' then ([c], rest) else (([] : List Char), cs)
    | [] => ([], cs)
  let d1 := sgn.2.takeWhile Char.isDigit
  let cs2 := sgn.2.drop d1.length
  match cs2 with
  | '.' :: cs3 =>
    let d2 := cs3.takeWhile Char.isDigit
    if d2 ≠ [] then some (sgn.1 ++ d1 ++ '.' :: d2, cs3.drop d2.length)
    else if d1 ≠ [] then some (sgn.1 ++ d1, cs2) else none
  | _ => if d1 ≠ [] then some (sgn.1 ++ d1, cs2) else none

/-- Scanning loop of `re.findall` for the float regex: try to match at each
position, and continue after the end of each (always nonempty) match.  The
fuel argument only serves termination; it is instantiated with the length of
the string, which the scan can never exhaust. -/
def findallFloatAux : ℕ → List Char → List (List Char)
  | 0, _ => []
  | _ + 1, [] => []
  | fuel + 1, c :: rest =>
    match matchFloatHere (c :: rest) with
    | some (m, after) => m :: findallFloatAux fuel after
    | none => findallFloatAux fuel rest

/-- The value `_REGEX_FLOAT.findall(s)`. -/
def findallFloat (s : String) : List String :=
  (findallFloatAux s.data.length s.data).map List.asString

/-- Numeric value of a digit run (helper for `floatOfString`). -/
def natOfDigits (ds : List Char) : ℕ :=
  ds.foldl (fun acc c => 10 * acc + (c.toNat - '0'.toNat)) 0

/-- Python `float(m)` on a string of the shape the float regex matches
(optional sign, integer digits, optional dot and fraction digits), as an
exact rational. -/
def floatOfString (s : String) : ℚ :=
  let cs := s.data
  let sgn := match cs with
    | '-' :: rest => (true, rest)
    | '+' :: rest => (false, rest)
    | _ => (false, cs)
  let ip := sgn.2.takeWhile Char.isDigit
  let rest := sgn.2.drop ip.length
  let fp := match rest with
    | '.' :: fs => fs.takeWhile Char.isDigit
    | _ => []
  let mag : ℚ := natOfDigits ip + (natOfDigits fp : ℚ) / (10 ^ fp.length)
  if sgn.1 then -mag else mag

/-- The initial Series Store: `meta_data` as initialised in `parse`, every
series seeded with the single entry `0.0`, keys in source order. -/
def metaDataInit : List (String × List ℚ) := [
  ("time_elapsed_total", [0]),
  ("time_elapsed_rc", [0]),
  ("time_elapsed_auto", [0]),
  ("time_elapsed_in_water", [0]),
  ("time_elapsed_out_water", [0]),
  ("distance_traveled_total", [0]),
  ("distance_traveled_rc", [0]),
  ("distance_traveled_auto", [0]),
  ("distance_from_home_location", [0]),
  ("velocity_over_ground", [0]),
  ("velocity_surge", [0]),
  ("velocity_sway", [0]),
  ("battery_voltage", [0]),
  ("battery_voltage_median", [0]),
  ("battery_voltage_drain_rate", [0]),
  ("cumulative_motor_action_total", [0]),
  ("cumulative_motor_action_rc", [0]),
  ("cumulative_motor_action_auto", [0]),
  ("rc_override_switch_count", [0])]

/-- Python `l[-1] = v` on a list (the engine never reaches the empty case,
where Python would raise `IndexError`; keeping it a no-op keeps the
operation length-preserving). -/
def setLast : List ℚ → ℚ → List ℚ
  | [], _ => []
  | [_], v => [v]
  | a :: b :: rest, v => a :: setLast (b :: rest) v

/-- The grid tick `for k in meta_data: meta_data[k].append(meta_data[k][-1])`:
every series gains one carried-forward copy of its current last value. -/
def gridTick (md : List (String × List ℚ)) : List (String × List ℚ) :=
  md.map fun kv => (kv.1, kv.2 ++ [kv.2.getLastD 0])

/-- Python `meta_data[name][-1] = v`. -/
def mdSet (md : List (String × List ℚ)) (name : String) (v : ℚ) :
    List (String × List ℚ) :=
  md.map fun kv => if kv.1 = name then (kv.1, setLast kv.2 v) else kv

/-- Python `meta_data[name][-1]`. -/
def mdGetLast (md : List (String × List ℚ)) (name : String) : ℚ :=
  ((md.lookup name).getD []).getLastD 0

/-- Python `meta_data[name][-1] += v`. -/
def mdAdd (md : List (String × List ℚ)) (name : String) (v : ℚ) :
    List (String × List ℚ) :=
  mdSet md name (mdGetLast md name + v)

/-- The mutable state of `parse`, one record instead of the reference's pile
of local variables (field names follow the source's variable names). -/
structure AggState where
  hasFirstGps : Bool
  inWater : Bool
  rcOn : Bool
  isAutonomous : Bool
  homePose : ℚ × ℚ
  currentPose : ℚ × ℚ
  currentTime : ℚ
  timeSinceAccumulation : ℚ
  voltageMedianWindow : List ℚ
  voltageTimeWindow : List ℚ
  voltageDrainRateReady : Bool
  poseWindow : List (ℚ × ℚ)
  velocityTimeWindow : List ℚ
  velocityReady : Bool
  firstEasting : ℚ
  firstNorthing : ℚ
  metaData : List (String × List ℚ)

/-- The state of `parse` just before the event loop (the local-variable
initialisers of lines 82–119; `voltageDrainRateReady` and `velocityReady`
embed `voltage_drain_rate_initialized` and `velocity_initialized`). -/
def initState : AggState := {
  hasFirstGps := false
  inWater := false
  rcOn := false
  isAutonomous := false
  homePose := (0, 0)
  currentPose := (0, 0)
  currentTime := 0
  timeSinceAccumulation := 0
  voltageMedianWindow := List.replicate VOLTAGE_MEDIAN_WINDOW 0
  voltageTimeWindow := List.replicate VOLTAGE_MEDIAN_WINDOW 0
  voltageDrainRateReady := false
  poseWindow := List.replicate VELOCITY_WINDOW (0, 0)
  velocityTimeWindow := List.replicate VELOCITY_WINDOW 0
  velocityReady := false
  firstEasting := 0
  firstNorthing := 0
  metaData := metaDataInit }

/-- Extraction `(v["p"][0], v["p"][1])` from a pose payload.  A missing key,
a non-array, or a non-numeric coordinate is an uncaught Python exception
(`KeyError`/`IndexError` at the extraction or `TypeError` later inside
`dist`). -/
def jsonPoseCoords (v : JVal) : Except PyErr (ℚ × ℚ) :=
  match v with
  | .obj fields =>
    match fields.lookup "p" with
    | some (.arr es) =>
      match es.getD 0 .null, es.getD 1 .null with
      | .num e, .num n => .ok (e, n)
      | _, _ => .error .uncaught
    | _ => .error .uncaught
  | _ => .error .uncaught

/-- The `if k == "pose"` branch (lines 148–184): distance from home written
into the latest `distance_from_home_location` sample, the event's travelled
distance returned, the pose and time windows shifted, the one-shot
initialisation of the translation origin, and (once ready) the OLS velocity
estimate written into the latest `velocity_over_ground` sample. -/
def processPose (sqrt : ℚ → ℚ) (ts : ℚ) (v : JVal) (st : AggState) :
    Except PyErr (AggState × ℚ) :=
  match jsonPoseCoords v with
  | .error e => .error e
  | .ok newPose =>
    match dist sqrt [newPose.1, newPose.2] [st.homePose.1, st.homePose.2] with
    | .error e => .error e
    | .ok dHome =>
      match dist sqrt [newPose.1, newPose.2] [st.currentPose.1, st.currentPose.2] with
      | .error e => .error e
      | .ok dTraveled =>
        let st1 : AggState := { st with
          metaData := mdSet st.metaData "distance_from_home_location" dHome
          currentPose := newPose
          poseWindow := st.poseWindow.tail ++ [newPose]
          velocityTimeWindow := st.velocityTimeWindow.tail ++ [ts] }
        let st2 : AggState :=
          if ¬ st1.velocityReady ∧ st1.velocityTimeWindow.headD 0 ≠ 0 then
            { st1 with
              velocityReady := true
              firstEasting := st1.currentPose.1
              firstNorthing := st1.currentPose.2 }
          else st1
        let st3 : AggState :=
          if st2.velocityReady then
            let velE := olsSlope st2.velocityTimeWindow
              (st2.poseWindow.map fun p => p.1 - st2.firstEasting)
            let velN := olsSlope st2.velocityTimeWindow
              (st2.poseWindow.map fun p => p.2 - st2.firstNorthing)
            let vel := sqrt (velE * velE + velN * velN)
            { st2 with metaData := mdSet st2.metaData "velocity_over_ground" vel }
          else st2
        .ok (st3, dTraveled)

/-- The `if k == "home_pose"` branch (lines 186–189): the first two float
literals of the payload string become the new home pose, and the current
pose is reset to it.  Fewer than two float literals is an uncaught
`IndexError`; a non-string payload an uncaught `TypeError` in `findall`. -/
def processHomePose (v : JVal) (st : AggState) : Except PyErr AggState :=
  match v with
  | .str s =>
    match findallFloat s with
    | m0 :: m1 :: _ =>
      let hp := (floatOfString m0, floatOfString m1)
      .ok { st with homePose := hp, currentPose := hp }
    | _ => .error .uncaught
  | _ => .error .uncaught

/-- The `BATTERY` part of the sensor branch (lines 202–215): write the
shifted voltage into the latest `battery_voltage` sample, push into the
median and time windows, write the window median, open the drain-rate gate
once the window's oldest slot is non-zero (the gate latches), and — with
the gate open — write the OLS slope of the window times 3600 (per-hour
rate) into the latest `battery_voltage_drain_rate` sample. -/
def processBattery (ts : ℚ) (raw : ℚ) (st : AggState) : AggState :=
  let voltageAboveDanger := raw - DANGER_VOLTAGE
  let vmw := st.voltageMedianWindow.tail ++ [voltageAboveDanger]
  let vtw := st.voltageTimeWindow.tail ++ [ts]
  let md1 := mdSet st.metaData "battery_voltage" voltageAboveDanger
  let md2 := mdSet md1 "battery_voltage_median" (median vmw)
  let ready := st.voltageDrainRateReady || decide (vmw.headD 0 ≠ 0)
  let md3 :=
    if ready then
      mdSet md2 "battery_voltage_drain_rate" (olsSlope vtw vmw * 3600)
    else md2
  { st with
    metaData := md3
    voltageMedianWindow := vmw
    voltageTimeWindow := vtw
    voltageDrainRateReady := ready }

/-- The `if k == "sensor"` branch (lines 190–215): look up `v["type"]`
(uncaught `KeyError` when absent, uncaught `TypeError` on a non-object
payload); an `EC_GOSYS` reading thresholds `in_water` against the cutoff; a
`BATTERY` reading runs `processBattery` on `float(v["data"])`. -/
def processSensor (ts : ℚ) (v : JVal) (st : AggState) : Except PyErr AggState :=
  match v with
  | .obj fields =>
    match fields.lookup "type" with
    | none => .error .uncaught
    | some typ =>
      let afterEc : Except PyErr AggState :=
        if jvalEqStr typ "EC_GOSYS" then
          match fields.lookup "data" with
          | none => .error .uncaught
          | some data =>
            match pyGtNum data EC_IN_WATER_CUTOFF with
            | .error e => .error e
            | .ok gt => .ok { st with inWater := gt }
        else .ok st
      match afterEc with
      | .error e => .error e
      | .ok st1 =>
        if jvalEqStr typ "BATTERY" then
          match fields.lookup "data" with
          | none => .error .uncaught
          | some data =>
            match pyFloat data with
            | .error e => .error e
            | .ok raw => .ok (processBattery ts raw st1)
        else .ok st1
  | _ => .error .uncaught

/-- The three flag assignments at the top of the key/value loop (lines
141–146): each flag is set by Python string comparison of the payload value
with `"true"`. -/
def applyFlags (k : String) (v : JVal) (st : AggState) : AggState :=
  let st := if k = "has_first_gps" then { st with hasFirstGps := jvalEqStr v "true" } else st
  let st := if k = "is_autonomous" then { st with isAutonomous := jvalEqStr v "true" } else st
  if k = "rc_override" then { st with rcOn := jvalEqStr v "true" } else st

/-- The body of `for k, v in six.viewitems(entry)` (lines 140–219) for one
key/value pair, threading the state and the line-local `distance_traveled`
accumulator.  The pose and home-pose branches are guarded by the *current*
value of `has_first_gps`; the `cmd` key is a no-op. -/
def processKV (sqrt : ℚ → ℚ) (ts : ℚ) (k : String) (v : JVal)
    (st : AggState) (d : ℚ) : Except PyErr (AggState × ℚ) :=
  let st := applyFlags k v st
  let gpsBranch : Except PyErr (AggState × ℚ) :=
    if st.hasFirstGps ∧ k = "pose" then processPose sqrt ts v st
    else if st.hasFirstGps ∧ k = "home_pose" then
      match processHomePose v st with
      | .error e => .error e
      | .ok st1 => .ok (st1, d)
    else .ok (st, d)
  match gpsBranch with
  | .error e => .error e
  | .ok (st1, d1) =>
    if k = "sensor" then
      match processSensor ts v st1 with
      | .error e => .error e
      | .ok st2 => .ok (st2, d1)
    else .ok (st1, d1)

/-- The loop over the payload's key/value pairs, threading state and the
line-local `distance_traveled`. -/
def processKVs (sqrt : ℚ → ℚ) (ts : ℚ) :
    List (String × JVal) → AggState → ℚ → Except PyErr (AggState × ℚ)
  | [], st, d => .ok (st, d)
  | (k, v) :: rest, st, d =>
    match processKV sqrt ts k v st d with
    | .error e => .error e
    | .ok (st1, d1) => processKVs sqrt ts rest st1 d1

/-- One raw log line after the tab split and the timestamp conversion of
lines 124–126: the millisecond offset, and the outcome of `json.loads` on
the payload — the decoded top-level object's key/value pairs in document
order, or a decode failure carrying the raw payload text. -/
structure LogLine where
  timeMs : ℚ
  message : Except String (List (String × JVal))

/-- Whether this line's grid tick fires: `time_since_accumulation + dt`
strictly exceeds the 10-second step. -/
def tickFires (st : AggState) (line : LogLine) : Bool :=
  decide (st.timeSinceAccumulation + (line.timeMs / 1000 - st.currentTime) > TIME_STEP)

/-- Lines 126–129: advance the clock and accumulate `dt` toward the grid
tick. -/
def advanceClock (st : AggState) (line : LogLine) : AggState :=
  { st with
    currentTime := line.timeMs / 1000
    timeSinceAccumulation :=
      st.timeSinceAccumulation + (line.timeMs / 1000 - st.currentTime) }

/-- Lines 130–134: when the accumulator strictly exceeds the step, reset it
to zero and append a carried-forward copy of its last value to every
series. -/
def maybeTick (st : AggState) : AggState :=
  if st.timeSinceAccumulation > TIME_STEP then
    { st with timeSinceAccumulation := 0, metaData := gridTick st.metaData }
  else st

/-- Lines 221–234: fold the line's `dt` into the time accumulators and its
travelled distance into the distance accumulators — always into the totals,
into the RC pair when `rc_on`, else into the autonomous pair when
`is_autonomous` (RC takes priority), and into exactly one of the
in-water/out-of-water series. -/
def accumulate (st : AggState) (dt distanceTraveled : ℚ) : AggState :=
  let md1 := mdAdd st.metaData "time_elapsed_total" dt
  let md2 := mdAdd md1 "distance_traveled_total" distanceTraveled
  let md3 :=
    if st.rcOn then
      mdAdd (mdAdd md2 "time_elapsed_rc" dt) "distance_traveled_rc" distanceTraveled
    else if st.isAutonomous then
      mdAdd (mdAdd md2 "time_elapsed_auto" dt) "distance_traveled_auto" distanceTraveled
    else md2
  let md4 :=
    if st.inWater then mdAdd md3 "time_elapsed_in_water" dt
    else mdAdd md3 "time_elapsed_out_water" dt
  { st with metaData := md4 }

/-- One iteration of the event loop (lines 124–237): advance the clock,
accumulate toward (and possibly fire) the grid tick, then — inside the
`try` — decode the payload, apply every key, and fold the line's `dt` and
travelled distance into the accumulator series.  A JSON decode failure is
re-raised with the offending payload. -/
def stepLine (sqrt : ℚ → ℚ) (st : AggState) (line : LogLine) :
    Except PyErr AggState :=
  let dt := line.timeMs / 1000 - st.currentTime
  let st2 := maybeTick (advanceClock st line)
  match line.message with
  | .error raw => .error (.malformedPayload raw)
  | .ok entry =>
    match processKVs sqrt (line.timeMs / 1000) entry st2 0 with
    | .error e => .error e
    | .ok (st3, distanceTraveled) => .ok (accumulate st3 dt distanceTraveled)

/-- The event loop of `parse`, folded over the log's lines. -/
def parseLines (sqrt : ℚ → ℚ) : List LogLine → AggState → Except PyErr AggState
  | [], st => .ok st
  | l :: ls, st =>
    match stepLine sqrt st l with
    | .error e => .error e
    | .ok st1 => parseLines sqrt ls st1

/-- The aggregation engine of `parse`: run the event loop from the freshly
initialised state and keep the Series Store, the artifact the spec's
external consumers read. -/
def parse (sqrt : ℚ → ℚ) (lines : List LogLine) :
    Except PyErr (List (String × List ℚ)) :=
  (parseLines sqrt lines initState).map AggState.metaData

/-! ### Lemmas about the Series Store primitives -/

/-- A series of the store, by name (`meta_data[name]`; the empty list for a
name the store does not hold). -/
def ser (md : List (String × List ℚ)) (n : String) : List ℚ :=
  (md.lookup n).getD []

/-- Name/length view of a store: everything the lock-step claims compare. -/
def lenKeys (md : List (String × List ℚ)) : List (String × ℕ) :=
  md.map fun kv => (kv.1, kv.2.length)

theorem setLast_length (l : List ℚ) (v : ℚ) : (setLast l v).length = l.length := by
  induction l with
  | nil => rfl
  | cons a as ih =>
    cases as with
    | nil => rfl
    | cons b t => simpa [setLast] using ih

theorem getD_setLast (l : List ℚ) (v : ℚ) (i : ℕ) :
    (setLast l v).getD i 0 = if i + 1 = l.length then v else l.getD i 0 := by
  induction l generalizing i with
  | nil => simp [setLast]
  | cons a as ih =>
    cases as with
    | nil =>
      cases i with
      | zero => simp [setLast]
      | succ j => simp [setLast]
    | cons b t =>
      cases i with
      | zero =>
        simp only [setLast, List.getD_cons_zero, List.length_cons]
        rw [if_neg (by omega)]
      | succ j =>
        simp only [setLast, List.getD_cons_succ, List.length_cons, ih]
        by_cases h : j + 1 = t.length + 1
        · rw [if_pos h, if_pos (by omega)]
        · rw [if_neg h, if_neg (by omega)]

theorem getLastD_cons_getD (a : ℚ) (t : List ℚ) (d : ℚ) :
    (a :: t).getLastD d = (a :: t).getD t.length 0 := by
  induction t generalizing a d with
  | nil => rfl
  | cons b t ih =>
    rw [List.getLastD_cons]
    simpa using ih b a

theorem getLastD_eq_getD (l : List ℚ) :
    l.getLastD 0 = l.getD (l.length - 1) 0 := by
  cases l with
  | nil => rfl
  | cons a t => simpa using getLastD_cons_getD a t 0

/-- Every key-preserving map commutes with lookup in the expected way. -/
theorem lookup_map_fst (md : List (String × List ℚ))
    (f : String × List ℚ → String × List ℚ)
    (hf : ∀ kv, (f kv).1 = kv.1) (k : String) :
    (md.map f).lookup k = (md.lookup k).map fun l => (f (k, l)).2 := by
  induction md with
  | nil => rfl
  | cons kv rest ih =>
    obtain ⟨k1, l1⟩ := kv
    rcases hf2 : f (k1, l1) with ⟨fk, fv⟩
    have hk : fk = k1 := by
      have := hf (k1, l1)
      rw [hf2] at this
      exact this
    subst hk
    simp only [List.map_cons, hf2, List.lookup_cons]
    by_cases h : k = fk
    · subst h
      simp [hf2]
    · simp [beq_false_of_ne h, ih]

theorem lookup_mdSet (md : List (String × List ℚ)) (n : String) (v : ℚ) (k : String) :
    (mdSet md n v).lookup k
      = (md.lookup k).map fun l => if k = n then setLast l v else l := by
  have := lookup_map_fst md
    (fun kv => if kv.1 = n then (kv.1, setLast kv.2 v) else kv)
    (by intro kv; by_cases h : kv.1 = n <;> simp [h]) k
  rw [mdSet, this]
  by_cases h : k = n <;> simp [h]

theorem lookup_mdSet_ne (md : List (String × List ℚ)) (n : String) (v : ℚ)
    (k : String) (h : k ≠ n) : (mdSet md n v).lookup k = md.lookup k := by
  rw [lookup_mdSet]
  cases md.lookup k <;> simp [h]

theorem ser_mdSet_ne (md : List (String × List ℚ)) (n : String) (v : ℚ)
    (k : String) (h : k ≠ n) : ser (mdSet md n v) k = ser md k := by
  rw [ser, lookup_mdSet_ne md n v k h, ser]

theorem ser_mdSet_self (md : List (String × List ℚ)) (n : String) (v : ℚ) :
    ser (mdSet md n v) n = setLast (ser md n) v := by
  rw [ser, lookup_mdSet]
  cases h : md.lookup n <;> simp [ser, h, setLast]

theorem lookup_gridTick (md : List (String × List ℚ)) (k : String) :
    (gridTick md).lookup k = (md.lookup k).map fun l => l ++ [l.getLastD 0] := by
  exact lookup_map_fst md _ (by intro kv; rfl) k

theorem ser_gridTick (md : List (String × List ℚ)) (k : String) :
    ser (gridTick md) k
      = if (md.lookup k).isSome then ser md k ++ [(ser md k).getLastD 0]
        else [] := by
  rw [ser, lookup_gridTick]
  cases h : md.lookup k <;> simp [ser, h]

theorem mdGetLast_eq (md : List (String × List ℚ)) (n : String) :
    mdGetLast md n = (ser md n).getLastD 0 := rfl

theorem ser_mdAdd_ne (md : List (String × List ℚ)) (n : String) (v : ℚ)
    (k : String) (h : k ≠ n) : ser (mdAdd md n v) k = ser md k :=
  ser_mdSet_ne _ _ _ _ h

theorem ser_mdAdd_self (md : List (String × List ℚ)) (n : String) (v : ℚ) :
    ser (mdAdd md n v) n = setLast (ser md n) ((ser md n).getLastD 0 + v) :=
  ser_mdSet_self _ _ _

theorem lenKeys_mdSet (md : List (String × List ℚ)) (n : String) (v : ℚ) :
    lenKeys (mdSet md n v) = lenKeys md := by
  induction md with
  | nil => rfl
  | cons kv rest ih =>
    simp only [mdSet, lenKeys, List.map_cons] at ih ⊢
    by_cases h : kv.1 = n <;> simp [h, setLast_length, ih]

theorem lenKeys_mdAdd (md : List (String × List ℚ)) (n : String) (v : ℚ) :
    lenKeys (mdAdd md n v) = lenKeys md := lenKeys_mdSet _ _ _

theorem lenKeys_gridTick (md : List (String × List ℚ)) :
    lenKeys (gridTick md) = (lenKeys md).map fun kv => (kv.1, kv.2 + 1) := by
  simp [lenKeys, gridTick, List.map_map, Function.comp]

theorem lookup_isSome_of_lenKeys (md md2 : List (String × List ℚ))
    (h : lenKeys md2 = lenKeys md) (k : String) :
    (md2.lookup k).isSome = (md.lookup k).isSome := by
  induction md generalizing md2 with
  | nil =>
    cases md2 with
    | nil => rfl
    | cons kv rest => simp [lenKeys] at h
  | cons kv rest ih =>
    obtain ⟨a, l⟩ := kv
    cases md2 with
    | nil => simp [lenKeys] at h
    | cons kv2 rest2 =>
      obtain ⟨a2, l2⟩ := kv2
      simp only [lenKeys, List.map_cons, List.cons.injEq, Prod.mk.injEq] at h
      obtain ⟨⟨hfst, _⟩, h2⟩ := h
      subst hfst
      simp only [List.lookup_cons]
      cases hbe : (k == a2) with
      | true => rfl
      | false => exact ih rest2 (by simpa [lenKeys] using h2)

/-! ### Effect lemmas for the per-event branch functions -/

theorem dist_eq (sqrt : ℚ → ℚ) (a b : List ℚ) :
    dist sqrt a b = if a.length ≠ b.length then .error .dimensionMismatch
      else .ok (sqrt (((a.zip b).map fun p => (p.1 - p.2) * (p.1 - p.2)).sum)) := rfl

theorem dist_pair (sqrt : ℚ → ℚ) (a b c d : ℚ) :
    dist sqrt [a, b] [c, d] = .ok (sqrt ((a - c) * (a - c) + (b - d) * (b - d))) := by
  rw [dist_eq]
  norm_num

theorem jsonPoseCoords_error (v : JVal) (e : PyErr)
    (h : jsonPoseCoords v = .error e) : e = .uncaught := by
  unfold jsonPoseCoords at h
  repeat' split at h
  all_goals first
    | (injection h with h1; exact h1.symm)
    | cases h

/-- The names the key/value loop may write through `mdSet`. -/
def kvTouchedNames : List String :=
  ["distance_from_home_location", "velocity_over_ground",
   "battery_voltage", "battery_voltage_median", "battery_voltage_drain_rate"]

theorem processHomePose_ok (v : JVal) (st st1 : AggState)
    (h : processHomePose v st = .ok st1) :
    st1.metaData = st.metaData ∧
    st1.currentTime = st.currentTime ∧
    st1.timeSinceAccumulation = st.timeSinceAccumulation ∧
    st1.rcOn = st.rcOn ∧ st1.isAutonomous = st.isAutonomous ∧
    st1.inWater = st.inWater ∧ st1.hasFirstGps = st.hasFirstGps ∧
    st1.voltageDrainRateReady = st.voltageDrainRateReady := by
  unfold processHomePose at h
  repeat' split at h
  all_goals try exact Except.noConfusion h
  all_goals injection h with h1
  all_goals subst h1
  all_goals exact ⟨rfl, rfl, rfl, rfl, rfl, rfl, rfl, rfl⟩

theorem processHomePose_error (v : JVal) (st : AggState) (e : PyErr)
    (h : processHomePose v st = .error e) : e = .uncaught := by
  unfold processHomePose at h
  repeat' split at h
  all_goals first
    | (injection h with h1; exact h1.symm)
    | cases h

theorem processPose_ok (sqrt : ℚ → ℚ) (ts : ℚ) (v : JVal) (st st2 : AggState) (d : ℚ)
    (h : processPose sqrt ts v st = .ok (st2, d)) :
    (∀ k, k ≠ "distance_from_home_location" → k ≠ "velocity_over_ground" →
        st2.metaData.lookup k = st.metaData.lookup k) ∧
    lenKeys st2.metaData = lenKeys st.metaData ∧
    st2.currentTime = st.currentTime ∧
    st2.timeSinceAccumulation = st.timeSinceAccumulation ∧
    st2.rcOn = st.rcOn ∧ st2.isAutonomous = st.isAutonomous ∧
    st2.inWater = st.inWater ∧ st2.hasFirstGps = st.hasFirstGps ∧
    st2.voltageDrainRateReady = st.voltageDrainRateReady ∧
    st2.voltageMedianWindow = st.voltageMedianWindow ∧
    st2.voltageTimeWindow = st.voltageTimeWindow ∧
    (∃ x, 0 ≤ x ∧ d = sqrt x) := by
  unfold processPose at h
  split at h
  · exact Except.noConfusion h
  rename_i newPose heqPose
  split at h
  · rename_i e heq1
    rw [dist_pair] at heq1
    exact Except.noConfusion heq1
  rename_i dHome heq1
  split at h
  · rename_i e heq2
    rw [dist_pair] at heq2
    exact Except.noConfusion heq2
  rename_i dT heq2
  rw [dist_pair] at heq2
  injection heq2 with hdT
  dsimp only at h
  split at h
  all_goals split at h
  all_goals injection h with h1
  all_goals injection h1 with hst hd
  all_goals subst hst
  all_goals subst hd
  all_goals subst hdT
  all_goals refine ⟨?_, ?_, rfl, rfl, rfl, rfl, rfl, rfl, rfl, rfl, rfl,
    _, ?_, rfl⟩
  all_goals try (intro k hk1 hk2)
  all_goals dsimp only
  all_goals first
    | exact add_nonneg (mul_self_nonneg _) (mul_self_nonneg _)
    | (rw [lookup_mdSet_ne _ _ _ _ hk2, lookup_mdSet_ne _ _ _ _ hk1]; done)
    | (rw [lookup_mdSet_ne _ _ _ _ hk1]; done)
    | (rw [lenKeys_mdSet, lenKeys_mdSet]; done)
    | (rw [lenKeys_mdSet]; done)

theorem processPose_error (sqrt : ℚ → ℚ) (ts : ℚ) (v : JVal) (st : AggState) (e : PyErr)
    (h : processPose sqrt ts v st = .error e) : e = .uncaught := by
  unfold processPose at h
  split at h
  · rename_i e2 heq
    injection h with h1
    subst h1
    exact jsonPoseCoords_error v _ heq
  rename_i newPose heqPose
  split at h
  · rename_i e2 heq
    rw [dist_pair] at heq
    exact Except.noConfusion heq
  rename_i dHome heq1
  split at h
  · rename_i e2 heq
    rw [dist_pair] at heq
    exact Except.noConfusion heq
  rename_i dT heq2
  dsimp only at h
  split at h
  all_goals split at h
  all_goals exact Except.noConfusion h

theorem processBattery_frame (ts raw : ℚ) (st : AggState) :
    (∀ k, k ≠ "battery_voltage" → k ≠ "battery_voltage_median" →
        k ≠ "battery_voltage_drain_rate" →
        (processBattery ts raw st).metaData.lookup k = st.metaData.lookup k) ∧
    lenKeys (processBattery ts raw st).metaData = lenKeys st.metaData ∧
    (processBattery ts raw st).currentTime = st.currentTime ∧
    (processBattery ts raw st).timeSinceAccumulation = st.timeSinceAccumulation ∧
    (processBattery ts raw st).rcOn = st.rcOn ∧
    (processBattery ts raw st).isAutonomous = st.isAutonomous ∧
    (processBattery ts raw st).inWater = st.inWater ∧
    (processBattery ts raw st).hasFirstGps = st.hasFirstGps := by
  unfold processBattery
  dsimp only
  refine ⟨?_, ?_, rfl, rfl, rfl, rfl, rfl, rfl⟩
  · intro k h1 h2 h3
    split
    · rw [lookup_mdSet_ne _ _ _ _ h3, lookup_mdSet_ne _ _ _ _ h2,
        lookup_mdSet_ne _ _ _ _ h1]
    · rw [lookup_mdSet_ne _ _ _ _ h2, lookup_mdSet_ne _ _ _ _ h1]
  · split
    · rw [lenKeys_mdSet, lenKeys_mdSet, lenKeys_mdSet]
    · rw [lenKeys_mdSet, lenKeys_mdSet]

theorem processBattery_drain (ts raw : ℚ) (st : AggState) :
    (processBattery ts raw st).voltageDrainRateReady
        = (st.voltageDrainRateReady
            || decide ((st.voltageMedianWindow.tail ++ [raw - DANGER_VOLTAGE]).headD 0 ≠ 0)) ∧
    ser (processBattery ts raw st).metaData "battery_voltage_drain_rate"
      = (if (st.voltageDrainRateReady
            || decide ((st.voltageMedianWindow.tail ++ [raw - DANGER_VOLTAGE]).headD 0 ≠ 0))
            = true
         then setLast (ser st.metaData "battery_voltage_drain_rate")
            (olsSlope (st.voltageTimeWindow.tail ++ [ts])
              (st.voltageMedianWindow.tail ++ [raw - DANGER_VOLTAGE]) * 3600)
         else ser st.metaData "battery_voltage_drain_rate") := by
  unfold processBattery
  dsimp only
  refine ⟨rfl, ?_⟩
  split
  · rw [ser_mdSet_self,
      ser_mdSet_ne _ _ _ _ (by decide : ("battery_voltage_drain_rate" : String) ≠ "battery_voltage_median"),
      ser_mdSet_ne _ _ _ _ (by decide : ("battery_voltage_drain_rate" : String) ≠ "battery_voltage")]
  · rw [ser_mdSet_ne _ _ _ _ (by decide : ("battery_voltage_drain_rate" : String) ≠ "battery_voltage_median"),
      ser_mdSet_ne _ _ _ _ (by decide : ("battery_voltage_drain_rate" : String) ≠ "battery_voltage")]

theorem pyGtNum_error (v : JVal) (c : ℚ) (e : PyErr)
    (h : pyGtNum v c = .error e) : e = .uncaught := by
  unfold pyGtNum at h
  split at h
  all_goals first
    | exact Except.noConfusion h
    | (injection h with h1
       exact h1.symm)

theorem pyFloat_error (v : JVal) (e : PyErr)
    (h : pyFloat v = .error e) : e = .uncaught := by
  unfold pyFloat at h
  split at h
  all_goals first
    | exact Except.noConfusion h
    | (injection h with h1
       exact h1.symm)

theorem processSensor_ok (ts : ℚ) (v : JVal) (st st1 : AggState)
    (h : processSensor ts v st = .ok st1) :
    (∀ k, k ≠ "battery_voltage" → k ≠ "battery_voltage_median" →
        k ≠ "battery_voltage_drain_rate" →
        st1.metaData.lookup k = st.metaData.lookup k) ∧
    lenKeys st1.metaData = lenKeys st.metaData ∧
    st1.currentTime = st.currentTime ∧
    st1.timeSinceAccumulation = st.timeSinceAccumulation ∧
    st1.rcOn = st.rcOn ∧ st1.isAutonomous = st.isAutonomous ∧
    st1.hasFirstGps = st.hasFirstGps ∧
    (st.voltageDrainRateReady = true → st1.voltageDrainRateReady = true) ∧
    (st1.voltageDrainRateReady = false →
      ser st1.metaData "battery_voltage_drain_rate"
        = ser st.metaData "battery_voltage_drain_rate"
      ∧ st.voltageDrainRateReady = false) := by
  unfold processSensor at h
  split at h
  case h_2 => exact Except.noConfusion h
  rename_i fields
  split at h
  · exact Except.noConfusion h
  rename_i typ heqTyp
  dsimp only at h
  split at h
  · exact Except.noConfusion h
  rename_i stEc heqEc
  have hEc : stEc.metaData = st.metaData ∧ stEc.currentTime = st.currentTime ∧
      stEc.timeSinceAccumulation = st.timeSinceAccumulation ∧
      stEc.rcOn = st.rcOn ∧ stEc.isAutonomous = st.isAutonomous ∧
      stEc.hasFirstGps = st.hasFirstGps ∧
      stEc.voltageDrainRateReady = st.voltageDrainRateReady ∧
      stEc.voltageMedianWindow = st.voltageMedianWindow ∧
      stEc.voltageTimeWindow = st.voltageTimeWindow := by
    split at heqEc
    · split at heqEc
      · exact Except.noConfusion heqEc
      rename_i data heqData
      split at heqEc
      · exact Except.noConfusion heqEc
      rename_i gt heqGt
      injection heqEc with h1
      subst h1
      exact ⟨rfl, rfl, rfl, rfl, rfl, rfl, rfl, rfl, rfl⟩
    · injection heqEc with h1
      subst h1
      exact ⟨rfl, rfl, rfl, rfl, rfl, rfl, rfl, rfl, rfl⟩
  obtain ⟨hmd, hct, htsa, hrc, hia, hgps, hready, hvmw, hvtw⟩ := hEc
  split at h
  · split at h
    · exact Except.noConfusion h
    rename_i data heqData
    split at h
    · exact Except.noConfusion h
    rename_i raw heqRaw
    injection h with h1
    subst h1
    obtain ⟨bf1, bf2, bf3, bf4, bf5, bf6, bf7, bf8⟩ := processBattery_frame ts raw stEc
    obtain ⟨bd1, bd2⟩ := processBattery_drain ts raw stEc
    refine ⟨?_, ?_, ?_, ?_, ?_, ?_, ?_, ?_, ?_⟩
    · intro k h1 h2 h3
      rw [bf1 k h1 h2 h3, hmd]
    · rw [bf2, hmd]
    · rw [bf3, hct]
    · rw [bf4, htsa]
    · rw [bf5, hrc]
    · rw [bf6, hia]
    · rw [bf8, hgps]
    · intro hr
      rw [bd1, hready, hr]
      simp
    · intro hr0
      have hcond : (stEc.voltageDrainRateReady
          || decide ((stEc.voltageMedianWindow.tail ++ [raw - DANGER_VOLTAGE]).headD 0 ≠ 0))
          = false := by
        rw [← bd1]
        exact hr0
      have hcl : stEc.voltageDrainRateReady = false := by
        rcases Bool.or_eq_false_iff.mp hcond with ⟨hx, _⟩
        exact hx
      constructor
      · rw [bd2, hcond]
        simp [hmd]
      · rw [← hready, hcl]
  · injection h with h1
    subst h1
    refine ⟨?_, ?_, hct, htsa, hrc, hia, hgps, ?_, ?_⟩
    · intro k h1 h2 h3
      rw [hmd]
    · rw [hmd]
    · intro hr
      rw [hready, hr]
    · intro hr0
      rw [hmd, ← hready]
      exact ⟨rfl, hr0 ▸ hready ▸ rfl⟩

theorem processSensor_error (ts : ℚ) (v : JVal) (st : AggState) (e : PyErr)
    (h : processSensor ts v st = .error e) : e = .uncaught := by
  unfold processSensor at h
  split at h
  case h_2 =>
    injection h with h1
    exact h1.symm
  rename_i fields
  split at h
  · injection h with h1
    exact h1.symm
  rename_i typ heqTyp
  dsimp only at h
  split at h
  · rename_i e2 heqEc
    injection h with h1
    subst h1
    split at heqEc
    · split at heqEc
      · injection heqEc with h2
        exact h2.symm
      rename_i data heqData
      split at heqEc
      · rename_i e3 heqGt
        injection heqEc with h2
        subst h2
        exact pyGtNum_error _ _ _ heqGt
      · exact Except.noConfusion heqEc
    · exact Except.noConfusion heqEc
  rename_i stEc heqEc
  split at h
  · split at h
    · injection h with h1
      exact h1.symm
    rename_i data heqData
    split at h
    · rename_i e3 heqRaw
      injection h with h1
      subst h1
      exact pyFloat_error _ _ heqRaw
    · exact Except.noConfusion h
  · exact Except.noConfusion h

theorem applyFlags_frame (k : String) (v : JVal) (st : AggState) :
    (applyFlags k v st).metaData = st.metaData ∧
    (applyFlags k v st).currentTime = st.currentTime ∧
    (applyFlags k v st).timeSinceAccumulation = st.timeSinceAccumulation ∧
    (applyFlags k v st).inWater = st.inWater ∧
    (applyFlags k v st).homePose = st.homePose ∧
    (applyFlags k v st).currentPose = st.currentPose ∧
    (applyFlags k v st).voltageDrainRateReady = st.voltageDrainRateReady ∧
    (applyFlags k v st).voltageMedianWindow = st.voltageMedianWindow ∧
    (applyFlags k v st).voltageTimeWindow = st.voltageTimeWindow := by
  unfold applyFlags
  dsimp only
  split
  all_goals split
  all_goals split
  all_goals exact ⟨rfl, rfl, rfl, rfl, rfl, rfl, rfl, rfl, rfl⟩


theorem sensorStage_ok (ts : ℚ) (k : String) (v : JVal) (stb : AggState) (db : ℚ)
    (st1 : AggState) (d1 : ℚ)
    (h : (if k = "sensor" then
            match processSensor ts v stb with
            | .error e => .error e
            | .ok st2 => Except.ok (st2, db)
          else Except.ok (stb, db)) = Except.ok (st1, d1)) :
    (∀ n, n ≠ "battery_voltage" → n ≠ "battery_voltage_median" →
        n ≠ "battery_voltage_drain_rate" →
        st1.metaData.lookup n = stb.metaData.lookup n) ∧
    lenKeys st1.metaData = lenKeys stb.metaData ∧
    st1.currentTime = stb.currentTime ∧
    st1.timeSinceAccumulation = stb.timeSinceAccumulation ∧
    d1 = db ∧
    (stb.voltageDrainRateReady = true → st1.voltageDrainRateReady = true) ∧
    (st1.voltageDrainRateReady = false →
      ser st1.metaData "battery_voltage_drain_rate"
        = ser stb.metaData "battery_voltage_drain_rate"
      ∧ stb.voltageDrainRateReady = false) := by
  split at h
  · rcases hs : processSensor ts v stb with e | st2
    · rw [hs] at h
      exact Except.noConfusion h
    · rw [hs] at h
      injection h with h1
      injection h1 with h2 h3
      subst h2
      subst h3
      obtain ⟨s1, s2, s3, s4, _, _, _, s8, s9⟩ := processSensor_ok ts v stb _ hs
      exact ⟨s1, s2, s3, s4, rfl, s8, s9⟩
  · injection h with h1
    injection h1 with h2 h3
    subst h2
    subst h3
    refine ⟨fun n _ _ _ => rfl, rfl, rfl, rfl, rfl, fun hr => hr, fun hr0 => ⟨rfl, hr0⟩⟩

theorem processKV_ok (sqrt : ℚ → ℚ) (ts : ℚ) (k : String) (v : JVal)
    (st : AggState) (d : ℚ) (st1 : AggState) (d1 : ℚ)
    (h : processKV sqrt ts k v st d = .ok (st1, d1)) :
    (∀ n, n ∉ kvTouchedNames → st1.metaData.lookup n = st.metaData.lookup n) ∧
    lenKeys st1.metaData = lenKeys st.metaData ∧
    st1.currentTime = st.currentTime ∧
    st1.timeSinceAccumulation = st.timeSinceAccumulation ∧
    ((∀ x, 0 ≤ x → 0 ≤ sqrt x) → 0 ≤ d → 0 ≤ d1) ∧
    (st.voltageDrainRateReady = true → st1.voltageDrainRateReady = true) ∧
    (st1.voltageDrainRateReady = false →
      ser st1.metaData "battery_voltage_drain_rate"
        = ser st.metaData "battery_voltage_drain_rate"
      ∧ st.voltageDrainRateReady = false) := by
  obtain ⟨af1, af2, af3, af4, af5, af6, af7, af8, af9⟩ := applyFlags_frame k v st
  have compose : ∀ (stb : AggState) (db : ℚ),
      (∀ n, n ≠ "distance_from_home_location" → n ≠ "velocity_over_ground" →
        stb.metaData.lookup n = st.metaData.lookup n) →
      lenKeys stb.metaData = lenKeys st.metaData →
      stb.currentTime = st.currentTime →
      stb.timeSinceAccumulation = st.timeSinceAccumulation →
      ((∀ x, 0 ≤ x → 0 ≤ sqrt x) → 0 ≤ d → 0 ≤ db) →
      stb.voltageDrainRateReady = st.voltageDrainRateReady →
      (if k = "sensor" then
          match processSensor ts v stb with
          | .error e => .error e
          | .ok st2 => Except.ok (st2, db)
        else Except.ok (stb, db)) = Except.ok (st1, d1) →
      (∀ n, n ∉ kvTouchedNames → st1.metaData.lookup n = st.metaData.lookup n) ∧
      lenKeys st1.metaData = lenKeys st.metaData ∧
      st1.currentTime = st.currentTime ∧
      st1.timeSinceAccumulation = st.timeSinceAccumulation ∧
      ((∀ x, 0 ≤ x → 0 ≤ sqrt x) → 0 ≤ d → 0 ≤ d1) ∧
      (st.voltageDrainRateReady = true → st1.voltageDrainRateReady = true) ∧
      (st1.voltageDrainRateReady = false →
        ser st1.metaData "battery_voltage_drain_rate"
          = ser st.metaData "battery_voltage_drain_rate"
        ∧ st.voltageDrainRateReady = false) := by
    intro stb db b1 b2 b3 b4 b5 b6 hsen
    obtain ⟨s1, s2, s3, s4, s5, s6, s7⟩ := sensorStage_ok ts k v stb db st1 d1 hsen
    refine ⟨?_, ?_, ?_, ?_, ?_, ?_, ?_⟩
    · intro n hn
      simp only [kvTouchedNames, List.mem_cons, List.not_mem_nil, or_false,
        not_or] at hn
      obtain ⟨hn1, hn2, hn3, hn4, hn5⟩ := hn
      rw [s1 n hn3 hn4 hn5, b1 n hn1 hn2]
    · rw [s2, b2]
    · rw [s3, b3]
    · rw [s4, b4]
    · intro hs hd
      subst s5
      exact b5 hs hd
    · intro hr
      exact s6 (b6 ▸ hr)
    · intro hr0
      obtain ⟨hs1, hs2⟩ := s7 hr0
      refine ⟨?_, b6 ▸ hs2⟩
      rw [hs1]
      unfold ser
      rw [b1 "battery_voltage_drain_rate" (by decide) (by decide)]
  unfold processKV at h
  dsimp only at h
  by_cases hp : (applyFlags k v st).hasFirstGps = true ∧ k = "pose"
  · rw [if_pos hp] at h
    rcases hpp : processPose sqrt ts v (applyFlags k v st) with e | res
    · rw [hpp] at h
      exact Except.noConfusion h
    obtain ⟨stb, db⟩ := res
    rw [hpp] at h
    dsimp only at h
    obtain ⟨p1, p2, p3, p4, _, _, _, _, p9, _, _, x, hx, hdx⟩ :=
      processPose_ok sqrt ts v (applyFlags k v st) stb db hpp
    refine compose stb db ?_ ?_ ?_ ?_ ?_ ?_ h
    · intro n hn1 hn2
      rw [p1 n hn1 hn2, af1]
    · rw [p2, af1]
    · rw [p3, af2]
    · rw [p4, af3]
    · intro hs _
      subst hdx
      exact hs x hx
    · rw [p9, af7]
  · rw [if_neg hp] at h
    by_cases hh : (applyFlags k v st).hasFirstGps = true ∧ k = "home_pose"
    · rw [if_pos hh] at h
      rcases hph : processHomePose v (applyFlags k v st) with e | sth
      · rw [hph] at h
        dsimp only at h
        exact Except.noConfusion h
      rw [hph] at h
      dsimp only at h
      obtain ⟨q1, q2, q3, _, _, _, _, q8⟩ :=
        processHomePose_ok v (applyFlags k v st) sth hph
      refine compose sth d ?_ ?_ ?_ ?_ ?_ ?_ h
      · intro n _ _
        rw [q1, af1]
      · rw [q1, af1]
      · rw [q2, af2]
      · rw [q3, af3]
      · intro _ hd
        exact hd
      · rw [q8, af7]
    · rw [if_neg hh] at h
      dsimp only at h
      refine compose (applyFlags k v st) d ?_ ?_ af2 af3 ?_ af7 h
      · intro n _ _
        rw [af1]
      · rw [af1]
      · intro _ hd
        exact hd

theorem sensorStage_error (ts : ℚ) (k : String) (v : JVal) (stb : AggState) (db : ℚ)
    (e : PyErr)
    (h : (if k = "sensor" then
            match processSensor ts v stb with
            | .error e => .error e
            | .ok st2 => Except.ok (st2, db)
          else Except.ok (stb, db)) = Except.error e) : e = .uncaught := by
  split at h
  · rcases hs : processSensor ts v stb with e2 | st2
    · rw [hs] at h
      injection h with h1
      subst h1
      exact processSensor_error ts v stb e2 hs
    · rw [hs] at h
      exact Except.noConfusion h
  · exact Except.noConfusion h

theorem processKV_error (sqrt : ℚ → ℚ) (ts : ℚ) (k : String) (v : JVal)
    (st : AggState) (d : ℚ) (e : PyErr)
    (h : processKV sqrt ts k v st d = .error e) : e = .uncaught := by
  unfold processKV at h
  dsimp only at h
  by_cases hp : (applyFlags k v st).hasFirstGps = true ∧ k = "pose"
  · rw [if_pos hp] at h
    rcases hpp : processPose sqrt ts v (applyFlags k v st) with e2 | res
    · rw [hpp] at h
      dsimp only at h
      injection h with h1
      subst h1
      exact processPose_error sqrt ts v (applyFlags k v st) e2 hpp
    · obtain ⟨stb, db⟩ := res
      rw [hpp] at h
      dsimp only at h
      exact sensorStage_error ts k v stb db e h
  · rw [if_neg hp] at h
    by_cases hh : (applyFlags k v st).hasFirstGps = true ∧ k = "home_pose"
    · rw [if_pos hh] at h
      rcases hph : processHomePose v (applyFlags k v st) with e2 | sth
      · rw [hph] at h
        dsimp only at h
        injection h with h1
        subst h1
        exact processHomePose_error v (applyFlags k v st) e2 hph
      · rw [hph] at h
        dsimp only at h
        exact sensorStage_error ts k v sth d e h
    · rw [if_neg hh] at h
      dsimp only at h
      exact sensorStage_error ts k v (applyFlags k v st) d e h

theorem processKVs_ok (sqrt : ℚ → ℚ) (ts : ℚ) (kvs : List (String × JVal)) :
    ∀ (st : AggState) (d : ℚ) (st1 : AggState) (d1 : ℚ),
    processKVs sqrt ts kvs st d = .ok (st1, d1) →
    (∀ n, n ∉ kvTouchedNames → st1.metaData.lookup n = st.metaData.lookup n) ∧
    lenKeys st1.metaData = lenKeys st.metaData ∧
    st1.currentTime = st.currentTime ∧
    st1.timeSinceAccumulation = st.timeSinceAccumulation ∧
    ((∀ x, 0 ≤ x → 0 ≤ sqrt x) → 0 ≤ d → 0 ≤ d1) ∧
    (st.voltageDrainRateReady = true → st1.voltageDrainRateReady = true) ∧
    (st1.voltageDrainRateReady = false →
      ser st1.metaData "battery_voltage_drain_rate"
        = ser st.metaData "battery_voltage_drain_rate"
      ∧ st.voltageDrainRateReady = false) := by
  induction kvs with
  | nil =>
    intro st d st1 d1 h
    unfold processKVs at h
    injection h with h1
    injection h1 with h2 h3
    subst h2
    subst h3
    exact ⟨fun n _ => rfl, rfl, rfl, rfl, fun _ hd => hd, fun hr => hr,
      fun hr0 => ⟨rfl, hr0⟩⟩
  | cons kv rest ih =>
    obtain ⟨k, v⟩ := kv
    intro st d st1 d1 h
    unfold processKVs at h
    rcases hkv : processKV sqrt ts k v st d with e | res
    · rw [hkv] at h
      exact Except.noConfusion h
    obtain ⟨stm, dm⟩ := res
    rw [hkv] at h
    dsimp only at h
    obtain ⟨a1, a2, a3, a4, a5, a6, a7⟩ := processKV_ok sqrt ts k v st d stm dm hkv
    obtain ⟨c1, c2, c3, c4, c5, c6, c7⟩ := ih stm dm st1 d1 h
    refine ⟨?_, ?_, ?_, ?_, ?_, ?_, ?_⟩
    · intro n hn
      rw [c1 n hn, a1 n hn]
    · rw [c2, a2]
    · rw [c3, a3]
    · rw [c4, a4]
    · intro hs hd
      exact c5 hs (a5 hs hd)
    · intro hr
      exact c6 (a6 hr)
    · intro hr0
      obtain ⟨d1h, d2h⟩ := c7 hr0
      obtain ⟨e1h, e2h⟩ := a7 d2h
      exact ⟨by rw [d1h, e1h], e2h⟩

theorem processKVs_error (sqrt : ℚ → ℚ) (ts : ℚ) (kvs : List (String × JVal)) :
    ∀ (st : AggState) (d : ℚ) (e : PyErr),
    processKVs sqrt ts kvs st d = .error e → e = .uncaught := by
  induction kvs with
  | nil =>
    intro st d e h
    unfold processKVs at h
    exact Except.noConfusion h
  | cons kv rest ih =>
    obtain ⟨k, v⟩ := kv
    intro st d e h
    unfold processKVs at h
    rcases hkv : processKV sqrt ts k v st d with e2 | res
    · rw [hkv] at h
      injection h with h1
      subst h1
      exact processKV_error sqrt ts k v st d e2 hkv
    · obtain ⟨stm, dm⟩ := res
      rw [hkv] at h
      dsimp only at h
      exact ih stm dm e h

/-! ### Run-level invariants -/

theorem lookup_mdAdd_ne (md : List (String × List ℚ)) (n : String) (v : ℚ)
    (k : String) (h : k ≠ n) : (mdAdd md n v).lookup k = md.lookup k :=
  lookup_mdSet_ne _ _ _ _ h

theorem lookup_mdAdd_some (md : List (String × List ℚ)) (n : String) (v : ℚ)
    (T : List ℚ) (hT : md.lookup n = some T) :
    (mdAdd md n v).lookup n = some (setLast T (T.getLastD 0 + v)) := by
  unfold mdAdd mdGetLast
  rw [lookup_mdSet, hT]
  simp [ser, hT]

theorem getD_append_last (l : List ℚ) (i : ℕ) :
    (l ++ [l.getLastD 0]).getD i 0 =
      if i < l.length then l.getD i 0
      else if i = l.length then l.getD (l.length - 1) 0
      else 0 := by
  by_cases h1 : i < l.length
  · rw [if_pos h1, List.getD_append _ _ _ _ h1]
  · rw [if_neg h1]
    by_cases h2 : i = l.length
    · rw [if_pos h2, List.getD_append_right _ _ _ _ (by omega), h2, Nat.sub_self,
        List.getD_cons_zero]
      exact getLastD_eq_getD l
    · rw [if_neg h2, List.getD_eq_default _ _ (by simp; omega)]

/-- The exact-sum invariant behind C2: the in-water and out-of-water series
sum to the total series, entry by entry. -/
def sumInv (md : List (String × List ℚ)) : Prop :=
  ∃ T I O, md.lookup "time_elapsed_total" = some T ∧
    md.lookup "time_elapsed_in_water" = some I ∧
    md.lookup "time_elapsed_out_water" = some O ∧
    I.length = T.length ∧ O.length = T.length ∧
    ∀ i, I.getD i 0 + O.getD i 0 = T.getD i 0

theorem sumInv_init : sumInv metaDataInit := by
  refine ⟨[0], [0], [0], rfl, rfl, rfl, rfl, rfl, ?_⟩
  intro i
  cases i <;> simp

theorem sumInv_gridTick (md : List (String × List ℚ)) (h : sumInv md) :
    sumInv (gridTick md) := by
  obtain ⟨T, I, O, hT, hI, hO, hIT, hOT, hSum⟩ := h
  refine ⟨T ++ [T.getLastD 0], I ++ [I.getLastD 0], O ++ [O.getLastD 0],
    ?_, ?_, ?_, by simp [hIT], by simp [hOT], ?_⟩
  · rw [lookup_gridTick, hT]
    rfl
  · rw [lookup_gridTick, hI]
    rfl
  · rw [lookup_gridTick, hO]
    rfl
  · intro i
    rw [getD_append_last, getD_append_last, getD_append_last, hIT, hOT]
    by_cases h1 : i < T.length
    · rw [if_pos h1, if_pos h1, if_pos h1]
      exact hSum i
    · rw [if_neg h1, if_neg h1, if_neg h1]
      by_cases h2 : i = T.length
      · rw [if_pos h2, if_pos h2, if_pos h2]
        exact hSum (T.length - 1)
      · rw [if_neg h2, if_neg h2, if_neg h2]
        norm_num

theorem sumInv_of_lookup_eq (md md2 : List (String × List ℚ))
    (h : ∀ n, n ∉ kvTouchedNames → md2.lookup n = md.lookup n)
    (hs : sumInv md) : sumInv md2 := by
  obtain ⟨T, I, O, hT, hI, hO, hIT, hOT, hSum⟩ := hs
  exact ⟨T, I, O,
    by rw [h "time_elapsed_total" (by decide), hT],
    by rw [h "time_elapsed_in_water" (by decide), hI],
    by rw [h "time_elapsed_out_water" (by decide), hO],
    hIT, hOT, hSum⟩

theorem sumInv_accumulate (st : AggState) (dt d : ℚ) (h : sumInv st.metaData) :
    sumInv (accumulate st dt d).metaData := by
  obtain ⟨T, I, O, hT, hI, hO, hIT, hOT, hSum⟩ := h
  unfold accumulate
  dsimp only
  have hmd3 : ∀ (md2 : List (String × List ℚ)) (k : String),
      k ≠ "time_elapsed_rc" → k ≠ "distance_traveled_rc" →
      k ≠ "time_elapsed_auto" → k ≠ "distance_traveled_auto" →
      (if st.rcOn = true then
          mdAdd (mdAdd md2 "time_elapsed_rc" dt) "distance_traveled_rc" d
        else if st.isAutonomous = true then
          mdAdd (mdAdd md2 "time_elapsed_auto" dt) "distance_traveled_auto" d
        else md2).lookup k = md2.lookup k := by
    intro md2 k h1 h2 h3 h4
    split
    · rw [lookup_mdAdd_ne _ _ _ _ h2, lookup_mdAdd_ne _ _ _ _ h1]
    split
    · rw [lookup_mdAdd_ne _ _ _ _ h4, lookup_mdAdd_ne _ _ _ _ h3]
    · rfl
  have hT1 : (mdAdd st.metaData "time_elapsed_total" dt).lookup "time_elapsed_total"
      = some (setLast T (T.getLastD 0 + dt)) := lookup_mdAdd_some _ _ _ _ hT
  have hT2 : (mdAdd (mdAdd st.metaData "time_elapsed_total" dt)
        "distance_traveled_total" d).lookup "time_elapsed_total"
      = some (setLast T (T.getLastD 0 + dt)) := by
    rw [lookup_mdAdd_ne _ _ _ _ (by decide), hT1]
  have hI2 : (mdAdd (mdAdd st.metaData "time_elapsed_total" dt)
        "distance_traveled_total" d).lookup "time_elapsed_in_water" = some I := by
    rw [lookup_mdAdd_ne _ _ _ _ (by decide), lookup_mdAdd_ne _ _ _ _ (by decide), hI]
  have hO2 : (mdAdd (mdAdd st.metaData "time_elapsed_total" dt)
        "distance_traveled_total" d).lookup "time_elapsed_out_water" = some O := by
    rw [lookup_mdAdd_ne _ _ _ _ (by decide), lookup_mdAdd_ne _ _ _ _ (by decide), hO]
  split
  · -- in-water branch: the in-water series gets the dt
    refine ⟨setLast T (T.getLastD 0 + dt), setLast I (I.getLastD 0 + dt), O,
      ?_, ?_, ?_, ?_, ?_, ?_⟩
    · rw [lookup_mdAdd_ne _ _ _ _ (by decide), hmd3 _ _ (by decide) (by decide)
        (by decide) (by decide), hT2]
    · have hIin : (if st.rcOn = true then
          mdAdd (mdAdd (mdAdd (mdAdd st.metaData "time_elapsed_total" dt)
            "distance_traveled_total" d) "time_elapsed_rc" dt) "distance_traveled_rc" d
        else if st.isAutonomous = true then
          mdAdd (mdAdd (mdAdd (mdAdd st.metaData "time_elapsed_total" dt)
            "distance_traveled_total" d) "time_elapsed_auto" dt) "distance_traveled_auto" d
        else mdAdd (mdAdd st.metaData "time_elapsed_total" dt)
          "distance_traveled_total" d).lookup "time_elapsed_in_water" = some I := by
        rw [hmd3 _ _ (by decide) (by decide) (by decide) (by decide), hI2]
      rw [lookup_mdAdd_some _ _ _ _ hIin]
    · rw [lookup_mdAdd_ne _ _ _ _ (by decide), hmd3 _ _ (by decide) (by decide)
        (by decide) (by decide), hO2]
    · rw [setLast_length, setLast_length, hIT]
    · rw [setLast_length, hOT]
    · intro i
      rw [getD_setLast, getD_setLast]
      by_cases h1 : i + 1 = T.length
      · rw [if_pos h1, if_pos (by rw [hIT]; exact h1)]
        rw [getLastD_eq_getD, getLastD_eq_getD]
        have hTi : T.length - 1 = i := by omega
        have hIi : I.length - 1 = i := by rw [hIT]; omega
        rw [hTi, hIi]
        have := hSum i
        linarith
      · rw [if_neg h1, if_neg (by rw [hIT]; exact h1)]
        exact hSum i
  · -- out-of-water branch: the out-of-water series gets the dt
    refine ⟨setLast T (T.getLastD 0 + dt), I, setLast O (O.getLastD 0 + dt),
      ?_, ?_, ?_, ?_, ?_, ?_⟩
    · rw [lookup_mdAdd_ne _ _ _ _ (by decide), hmd3 _ _ (by decide) (by decide)
        (by decide) (by decide), hT2]
    · rw [lookup_mdAdd_ne _ _ _ _ (by decide), hmd3 _ _ (by decide) (by decide)
        (by decide) (by decide), hI2]
    · have hOout : (if st.rcOn = true then
          mdAdd (mdAdd (mdAdd (mdAdd st.metaData "time_elapsed_total" dt)
            "distance_traveled_total" d) "time_elapsed_rc" dt) "distance_traveled_rc" d
        else if st.isAutonomous = true then
          mdAdd (mdAdd (mdAdd (mdAdd st.metaData "time_elapsed_total" dt)
            "distance_traveled_total" d) "time_elapsed_auto" dt) "distance_traveled_auto" d
        else mdAdd (mdAdd st.metaData "time_elapsed_total" dt)
          "distance_traveled_total" d).lookup "time_elapsed_out_water" = some O := by
        rw [hmd3 _ _ (by decide) (by decide) (by decide) (by decide), hO2]
      rw [lookup_mdAdd_some _ _ _ _ hOout]
    · rw [setLast_length, hIT]
    · rw [setLast_length, setLast_length, hOT]
    · intro i
      rw [getD_setLast, getD_setLast]
      by_cases h1 : i + 1 = T.length
      · rw [if_pos h1, if_pos (by rw [hOT]; exact h1)]
        rw [getLastD_eq_getD, getLastD_eq_getD]
        have hTi : T.length - 1 = i := by omega
        have hOi : O.length - 1 = i := by rw [hOT]; omega
        rw [hTi, hOi]
        have := hSum i
        linarith
      · rw [if_neg h1, if_neg (by rw [hOT]; exact h1)]
        exact hSum i

theorem sumInv_maybeTick (st : AggState) (h : sumInv st.metaData) :
    sumInv (maybeTick st).metaData := by
  unfold maybeTick
  split
  · exact sumInv_gridTick _ h
  · exact h

theorem stepLine_sumInv (sqrt : ℚ → ℚ) (st : AggState) (line : LogLine)
    (st1 : AggState) (h : stepLine sqrt st line = .ok st1)
    (hs : sumInv st.metaData) : sumInv st1.metaData := by
  unfold stepLine at h
  dsimp only at h
  rcases hmsg : line.message with raw | entry
  · rw [hmsg] at h
    exact Except.noConfusion h
  rw [hmsg] at h
  dsimp only at h
  rcases hkv : processKVs sqrt (line.timeMs / 1000) entry
      (maybeTick (advanceClock st line)) 0 with e | res
  · rw [hkv] at h
    exact Except.noConfusion h
  obtain ⟨st3, d⟩ := res
  rw [hkv] at h
  dsimp only at h
  injection h with h1
  subst h1
  have h1 : sumInv (maybeTick (advanceClock st line)).metaData :=
    sumInv_maybeTick (advanceClock st line) hs
  obtain ⟨f1, _, _, _, _, _, _⟩ :=
    processKVs_ok sqrt (line.timeMs / 1000) entry
      (maybeTick (advanceClock st line)) 0 st3 d hkv
  exact sumInv_accumulate st3 _ _ (sumInv_of_lookup_eq _ _ f1 h1)

theorem parseLines_inv (sqrt : ℚ → ℚ) (P : AggState → Prop)
    (hstep : ∀ st line st1, stepLine sqrt st line = .ok st1 → P st → P st1) :
    ∀ (lines : List LogLine) (st st1 : AggState),
      parseLines sqrt lines st = .ok st1 → P st → P st1 := by
  intro lines
  induction lines with
  | nil =>
    intro st st1 h hp
    unfold parseLines at h
    injection h with h1
    subst h1
    exact hp
  | cons l ls ih =>
    intro st st1 h hp
    unfold parseLines at h
    rcases hl : stepLine sqrt st l with e | st2
    · rw [hl] at h
      exact Except.noConfusion h
    · rw [hl] at h
      dsimp only at h
      exact ih st2 st1 h (hstep st l st2 hl hp)

/-- The C2 property of one aggregation outcome: on success, at every grid
index the in-water and out-of-water elapsed times sum exactly to the total
elapsed time; an aborted run asserts nothing. -/
def inOutSumExact : Except PyErr AggState → Prop
  | .ok st => ∀ i, (ser st.metaData "time_elapsed_in_water").getD i 0
        + (ser st.metaData "time_elapsed_out_water").getD i 0
        = (ser st.metaData "time_elapsed_total").getD i 0
  | .error _ => True

/-- C2: for every input and every grid index `i`,
`time_elapsed_in_water[i] + time_elapsed_out_water[i] =
time_elapsed_total[i]` exactly — every event's `dt` goes into
`time_elapsed_total` and into exactly one of the in-water/out-of-water
series, chosen by the current `in_water` flag. -/
theorem C2_in_out_water_sum_exact :
    ∀ (sqrt : ℚ → ℚ) (lines : List LogLine),
      inOutSumExact (parseLines sqrt lines initState) := by
  intro sqrt lines
  rcases hp : parseLines sqrt lines initState with e | st1
  · exact trivial
  · have hinv : sumInv st1.metaData :=
      parseLines_inv sqrt (fun st => sumInv st.metaData)
        (fun st line st2 h hp => stepLine_sumInv sqrt st line st2 h hp)
        lines initState st1 hp sumInv_init
    obtain ⟨T, I, O, hT, hI, hO, _, _, hSum⟩ := hinv
    show ∀ i, _
    simp only [ser, hT, hI, hO, Option.getD_some]
    exact hSum

/-- The mutual-exclusion invariant behind C3: the RC and autonomous series
never sum past their total, entry by entry, for both the time and the
distance accumulators. -/
def leInv (md : List (String × List ℚ)) : Prop :=
  ∃ T R A DT DR DA,
    md.lookup "time_elapsed_total" = some T ∧
    md.lookup "time_elapsed_rc" = some R ∧
    md.lookup "time_elapsed_auto" = some A ∧
    md.lookup "distance_traveled_total" = some DT ∧
    md.lookup "distance_traveled_rc" = some DR ∧
    md.lookup "distance_traveled_auto" = some DA ∧
    R.length = T.length ∧ A.length = T.length ∧
    DR.length = DT.length ∧ DA.length = DT.length ∧
    (∀ i, R.getD i 0 + A.getD i 0 ≤ T.getD i 0) ∧
    (∀ i, DR.getD i 0 + DA.getD i 0 ≤ DT.getD i 0)

theorem leInv_init : leInv metaDataInit := by
  refine ⟨[0], [0], [0], [0], [0], [0], rfl, rfl, rfl, rfl, rfl, rfl,
    rfl, rfl, rfl, rfl, ?_, ?_⟩
  all_goals intro i
  all_goals cases i <;> simp

theorem le_append_last (T R A : List ℚ) (hRT : R.length = T.length)
    (hAT : A.length = T.length)
    (hSum : ∀ i, R.getD i 0 + A.getD i 0 ≤ T.getD i 0) :
    ∀ i, (R ++ [R.getLastD 0]).getD i 0 + (A ++ [A.getLastD 0]).getD i 0
      ≤ (T ++ [T.getLastD 0]).getD i 0 := by
  intro i
  rw [getD_append_last, getD_append_last, getD_append_last, hRT, hAT]
  by_cases h1 : i < T.length
  · rw [if_pos h1, if_pos h1, if_pos h1]
    exact hSum i
  · rw [if_neg h1, if_neg h1, if_neg h1]
    by_cases h2 : i = T.length
    · rw [if_pos h2, if_pos h2, if_pos h2]
      exact hSum (T.length - 1)
    · rw [if_neg h2, if_neg h2, if_neg h2]
      norm_num

theorem leInv_gridTick (md : List (String × List ℚ)) (h : leInv md) :
    leInv (gridTick md) := by
  obtain ⟨T, R, A, DT, DR, DA, hT, hR, hA, hDT, hDR, hDA,
    hRT, hAT, hDRT, hDAT, hSum, hDSum⟩ := h
  refine ⟨T ++ [T.getLastD 0], R ++ [R.getLastD 0], A ++ [A.getLastD 0],
    DT ++ [DT.getLastD 0], DR ++ [DR.getLastD 0], DA ++ [DA.getLastD 0],
    ?_, ?_, ?_, ?_, ?_, ?_, by simp [hRT], by simp [hAT], by simp [hDRT],
    by simp [hDAT], le_append_last T R A hRT hAT hSum,
    le_append_last DT DR DA hDRT hDAT hDSum⟩
  all_goals rw [lookup_gridTick]
  · rw [hT]; rfl
  · rw [hR]; rfl
  · rw [hA]; rfl
  · rw [hDT]; rfl
  · rw [hDR]; rfl
  · rw [hDA]; rfl

theorem leInv_of_lookup_eq (md md2 : List (String × List ℚ))
    (h : ∀ n, n ∉ kvTouchedNames → md2.lookup n = md.lookup n)
    (hs : leInv md) : leInv md2 := by
  obtain ⟨T, R, A, DT, DR, DA, hT, hR, hA, hDT, hDR, hDA, rest⟩ := hs
  exact ⟨T, R, A, DT, DR, DA,
    by rw [h "time_elapsed_total" (by decide), hT],
    by rw [h "time_elapsed_rc" (by decide), hR],
    by rw [h "time_elapsed_auto" (by decide), hA],
    by rw [h "distance_traveled_total" (by decide), hDT],
    by rw [h "distance_traveled_rc" (by decide), hDR],
    by rw [h "distance_traveled_auto" (by decide), hDA],
    rest⟩

theorem le_bump_both (T R A : List ℚ) (dt : ℚ) (hRT : R.length = T.length)
    (hAT : A.length = T.length)
    (hSum : ∀ i, R.getD i 0 + A.getD i 0 ≤ T.getD i 0) :
    ∀ i, (setLast R (R.getLastD 0 + dt)).getD i 0 + A.getD i 0
      ≤ (setLast T (T.getLastD 0 + dt)).getD i 0 := by
  intro i
  rw [getD_setLast, getD_setLast]
  by_cases h1 : i + 1 = T.length
  · rw [if_pos h1, if_pos (by rw [hRT]; exact h1)]
    rw [getLastD_eq_getD, getLastD_eq_getD]
    have hTi : T.length - 1 = i := by omega
    have hRi : R.length - 1 = i := by rw [hRT]; omega
    rw [hTi, hRi]
    have := hSum i
    linarith
  · rw [if_neg h1, if_neg (by rw [hRT]; exact h1)]
    exact hSum i

theorem le_bump_both_swap (T R A : List ℚ) (dt : ℚ) (hRT : R.length = T.length)
    (hAT : A.length = T.length)
    (hSum : ∀ i, R.getD i 0 + A.getD i 0 ≤ T.getD i 0) :
    ∀ i, R.getD i 0 + (setLast A (A.getLastD 0 + dt)).getD i 0
      ≤ (setLast T (T.getLastD 0 + dt)).getD i 0 := by
  intro i
  rw [getD_setLast, getD_setLast]
  by_cases h1 : i + 1 = T.length
  · rw [if_pos h1, if_pos (by rw [hAT]; exact h1)]
    rw [getLastD_eq_getD, getLastD_eq_getD]
    have hTi : T.length - 1 = i := by omega
    have hAi : A.length - 1 = i := by rw [hAT]; omega
    rw [hTi, hAi]
    have := hSum i
    linarith
  · rw [if_neg h1, if_neg (by rw [hAT]; exact h1)]
    exact hSum i

theorem le_bump_total (T R A : List ℚ) (dt : ℚ) (hdt : 0 ≤ dt)
    (hSum : ∀ i, R.getD i 0 + A.getD i 0 ≤ T.getD i 0) :
    ∀ i, R.getD i 0 + A.getD i 0 ≤ (setLast T (T.getLastD 0 + dt)).getD i 0 := by
  intro i
  rw [getD_setLast]
  by_cases h1 : i + 1 = T.length
  · rw [if_pos h1]
    rw [getLastD_eq_getD]
    have hTi : T.length - 1 = i := by omega
    rw [hTi]
    have := hSum i
    linarith
  · rw [if_neg h1]
    exact hSum i

theorem leInv_accumulate (st : AggState) (dt d : ℚ) (hdt : 0 ≤ dt) (hd : 0 ≤ d)
    (h : leInv st.metaData) : leInv (accumulate st dt d).metaData := by
  obtain ⟨T, R, A, DT, DR, DA, hT, hR, hA, hDT, hDR, hDA,
    hRT, hAT, hDRT, hDAT, hSum, hDSum⟩ := h
  unfold accumulate
  dsimp only
  have hmd4 : ∀ (md3 : List (String × List ℚ)) (k : String),
      k ≠ "time_elapsed_in_water" → k ≠ "time_elapsed_out_water" →
      (if st.inWater = true then mdAdd md3 "time_elapsed_in_water" dt
       else mdAdd md3 "time_elapsed_out_water" dt).lookup k = md3.lookup k := by
    intro md3 k h1 h2
    split
    · rw [lookup_mdAdd_ne _ _ _ _ h1]
    · rw [lookup_mdAdd_ne _ _ _ _ h2]
  have hT2 : (mdAdd (mdAdd st.metaData "time_elapsed_total" dt)
      "distance_traveled_total" d).lookup "time_elapsed_total"
      = some (setLast T (T.getLastD 0 + dt)) := by
    rw [lookup_mdAdd_ne _ _ _ _ (by decide), lookup_mdAdd_some _ _ _ _ hT]
  have hDT2 : (mdAdd (mdAdd st.metaData "time_elapsed_total" dt)
      "distance_traveled_total" d).lookup "distance_traveled_total"
      = some (setLast DT (DT.getLastD 0 + d)) := by
    rw [lookup_mdAdd_some]
    rw [lookup_mdAdd_ne _ _ _ _ (by decide), hDT]
  have hR2 : (mdAdd (mdAdd st.metaData "time_elapsed_total" dt)
      "distance_traveled_total" d).lookup "time_elapsed_rc" = some R := by
    rw [lookup_mdAdd_ne _ _ _ _ (by decide), lookup_mdAdd_ne _ _ _ _ (by decide), hR]
  have hA2 : (mdAdd (mdAdd st.metaData "time_elapsed_total" dt)
      "distance_traveled_total" d).lookup "time_elapsed_auto" = some A := by
    rw [lookup_mdAdd_ne _ _ _ _ (by decide), lookup_mdAdd_ne _ _ _ _ (by decide), hA]
  have hDR2 : (mdAdd (mdAdd st.metaData "time_elapsed_total" dt)
      "distance_traveled_total" d).lookup "distance_traveled_rc" = some DR := by
    rw [lookup_mdAdd_ne _ _ _ _ (by decide), lookup_mdAdd_ne _ _ _ _ (by decide), hDR]
  have hDA2 : (mdAdd (mdAdd st.metaData "time_elapsed_total" dt)
      "distance_traveled_total" d).lookup "distance_traveled_auto" = some DA := by
    rw [lookup_mdAdd_ne _ _ _ _ (by decide), lookup_mdAdd_ne _ _ _ _ (by decide), hDA]
  by_cases hrc : st.rcOn = true
  · rw [if_pos hrc]
    refine ⟨setLast T (T.getLastD 0 + dt), setLast R (R.getLastD 0 + dt), A,
      setLast DT (DT.getLastD 0 + d), setLast DR (DR.getLastD 0 + d), DA,
      ?_, ?_, ?_, ?_, ?_, ?_,
      by rw [setLast_length, setLast_length, hRT],
      by rw [setLast_length, hAT],
      by rw [setLast_length, setLast_length, hDRT],
      by rw [setLast_length, hDAT],
      le_bump_both T R A dt hRT hAT hSum,
      le_bump_both DT DR DA d hDRT hDAT hDSum⟩
    · rw [hmd4 _ _ (by decide) (by decide), lookup_mdAdd_ne _ _ _ _ (by decide),
        lookup_mdAdd_ne _ _ _ _ (by decide), hT2]
    · rw [hmd4 _ _ (by decide) (by decide), lookup_mdAdd_ne _ _ _ _ (by decide),
        lookup_mdAdd_some _ _ _ _ hR2]
    · rw [hmd4 _ _ (by decide) (by decide), lookup_mdAdd_ne _ _ _ _ (by decide),
        lookup_mdAdd_ne _ _ _ _ (by decide), hA2]
    · rw [hmd4 _ _ (by decide) (by decide), lookup_mdAdd_ne _ _ _ _ (by decide),
        lookup_mdAdd_ne _ _ _ _ (by decide), hDT2]
    · rw [hmd4 _ _ (by decide) (by decide), lookup_mdAdd_some]
      rw [lookup_mdAdd_ne _ _ _ _ (by decide), hDR2]
    · rw [hmd4 _ _ (by decide) (by decide), lookup_mdAdd_ne _ _ _ _ (by decide),
        lookup_mdAdd_ne _ _ _ _ (by decide), hDA2]
  · rw [if_neg hrc]
    by_cases hia : st.isAutonomous = true
    · rw [if_pos hia]
      refine ⟨setLast T (T.getLastD 0 + dt), R, setLast A (A.getLastD 0 + dt),
        setLast DT (DT.getLastD 0 + d), DR, setLast DA (DA.getLastD 0 + d),
        ?_, ?_, ?_, ?_, ?_, ?_,
        by rw [setLast_length, hRT],
        by rw [setLast_length, setLast_length, hAT],
        by rw [setLast_length, hDRT],
        by rw [setLast_length, setLast_length, hDAT],
        le_bump_both_swap T R A dt hRT hAT hSum,
        le_bump_both_swap DT DR DA d hDRT hDAT hDSum⟩
      · rw [hmd4 _ _ (by decide) (by decide), lookup_mdAdd_ne _ _ _ _ (by decide),
          lookup_mdAdd_ne _ _ _ _ (by decide), hT2]
      · rw [hmd4 _ _ (by decide) (by decide), lookup_mdAdd_ne _ _ _ _ (by decide),
          lookup_mdAdd_ne _ _ _ _ (by decide), hR2]
      · rw [hmd4 _ _ (by decide) (by decide), lookup_mdAdd_ne _ _ _ _ (by decide),
          lookup_mdAdd_some _ _ _ _ hA2]
      · rw [hmd4 _ _ (by decide) (by decide), lookup_mdAdd_ne _ _ _ _ (by decide),
          lookup_mdAdd_ne _ _ _ _ (by decide), hDT2]
      · rw [hmd4 _ _ (by decide) (by decide), lookup_mdAdd_ne _ _ _ _ (by decide),
          lookup_mdAdd_ne _ _ _ _ (by decide), hDR2]
      · rw [hmd4 _ _ (by decide) (by decide), lookup_mdAdd_some]
        rw [lookup_mdAdd_ne _ _ _ _ (by decide), hDA2]
    · rw [if_neg hia]
      refine ⟨setLast T (T.getLastD 0 + dt), R, A,
        setLast DT (DT.getLastD 0 + d), DR, DA,
        ?_, ?_, ?_, ?_, ?_, ?_,
        by rw [setLast_length, hRT],
        by rw [setLast_length, hAT],
        by rw [setLast_length, hDRT],
        by rw [setLast_length, hDAT],
        le_bump_total T R A dt hdt hSum,
        le_bump_total DT DR DA d hd hDSum⟩
      · rw [hmd4 _ _ (by decide) (by decide), hT2]
      · rw [hmd4 _ _ (by decide) (by decide), hR2]
      · rw [hmd4 _ _ (by decide) (by decide), hA2]
      · rw [hmd4 _ _ (by decide) (by decide), hDT2]
      · rw [hmd4 _ _ (by decide) (by decide), hDR2]
      · rw [hmd4 _ _ (by decide) (by decide), hDA2]

theorem maybeTick_frame (st : AggState) :
    (maybeTick st).currentTime = st.currentTime ∧
    (maybeTick st).voltageDrainRateReady = st.voltageDrainRateReady ∧
    (maybeTick st).hasFirstGps = st.hasFirstGps ∧
    (maybeTick st).inWater = st.inWater ∧
    (maybeTick st).rcOn = st.rcOn ∧
    (maybeTick st).isAutonomous = st.isAutonomous := by
  unfold maybeTick
  split
  all_goals exact ⟨rfl, rfl, rfl, rfl, rfl, rfl⟩

theorem stepLine_ok_cases (sqrt : ℚ → ℚ) (st : AggState) (line : LogLine)
    (st1 : AggState) (h : stepLine sqrt st line = .ok st1) :
    ∃ entry st3 d, line.message = .ok entry ∧
      processKVs sqrt (line.timeMs / 1000) entry
        (maybeTick (advanceClock st line)) 0 = .ok (st3, d) ∧
      st1 = accumulate st3 (line.timeMs / 1000 - st.currentTime) d := by
  unfold stepLine at h
  dsimp only at h
  rcases hmsg : line.message with raw | entry
  · rw [hmsg] at h
    exact Except.noConfusion h
  rw [hmsg] at h
  dsimp only at h
  rcases hkv : processKVs sqrt (line.timeMs / 1000) entry
      (maybeTick (advanceClock st line)) 0 with e | res
  · rw [hkv] at h
    exact Except.noConfusion h
  obtain ⟨st3, d⟩ := res
  rw [hkv] at h
  dsimp only at h
  injection h with h1
  exact ⟨entry, st3, d, rfl, hkv, h1.symm⟩

theorem stepLine_currentTime (sqrt : ℚ → ℚ) (st : AggState) (line : LogLine)
    (st1 : AggState) (h : stepLine sqrt st line = .ok st1) :
    st1.currentTime = line.timeMs / 1000 := by
  obtain ⟨entry, st3, d, hmsg, hkv, hst⟩ := stepLine_ok_cases sqrt st line st1 h
  obtain ⟨_, _, c3, _, _, _, _⟩ :=
    processKVs_ok sqrt (line.timeMs / 1000) entry
      (maybeTick (advanceClock st line)) 0 st3 d hkv
  subst hst
  show st3.currentTime = line.timeMs / 1000
  rw [c3, (maybeTick_frame (advanceClock st line)).1]
  rfl

theorem stepLine_leInv (sqrt : ℚ → ℚ) (st : AggState) (line : LogLine)
    (st1 : AggState) (hsqrt : ∀ x, 0 ≤ x → 0 ≤ sqrt x)
    (hts : st.currentTime ≤ line.timeMs / 1000)
    (h : stepLine sqrt st line = .ok st1)
    (hs : leInv st.metaData) : leInv st1.metaData := by
  obtain ⟨entry, st3, d, hmsg, hkv, hst⟩ := stepLine_ok_cases sqrt st line st1 h
  obtain ⟨f1, _, _, _, f5, _, _⟩ :=
    processKVs_ok sqrt (line.timeMs / 1000) entry
      (maybeTick (advanceClock st line)) 0 st3 d hkv
  have h1 : leInv (maybeTick (advanceClock st line)).metaData := by
    unfold maybeTick
    split
    · exact leInv_gridTick _ hs
    · exact hs
  have h2 : leInv st3.metaData := leInv_of_lookup_eq _ _ f1 h1
  subst hst
  exact leInv_accumulate st3 _ _ (by linarith) (f5 hsqrt le_rfl) h2

/-- Input timestamps (converted to seconds) are non-decreasing starting
from `t` — the well-formedness assumption the spec states for the log. -/
def timesSortedFrom (t : ℚ) : List LogLine → Prop
  | [] => True
  | l :: ls => t ≤ l.timeMs / 1000 ∧ timesSortedFrom (l.timeMs / 1000) ls

theorem parseLines_inv_sorted (sqrt : ℚ → ℚ) (P : AggState → Prop)
    (hstep : ∀ st line st1, st.currentTime ≤ line.timeMs / 1000 →
      stepLine sqrt st line = .ok st1 → P st → P st1) :
    ∀ (lines : List LogLine) (st st1 : AggState),
      parseLines sqrt lines st = .ok st1 →
      timesSortedFrom st.currentTime lines → P st → P st1 := by
  intro lines
  induction lines with
  | nil =>
    intro st st1 h _ hp
    unfold parseLines at h
    injection h with h1
    subst h1
    exact hp
  | cons l ls ih =>
    intro st st1 h hsort hp
    obtain ⟨hle, hrest⟩ := hsort
    unfold parseLines at h
    rcases hl : stepLine sqrt st l with e | st2
    · rw [hl] at h
      exact Except.noConfusion h
    · rw [hl] at h
      dsimp only at h
      have hct : st2.currentTime = l.timeMs / 1000 :=
        stepLine_currentTime sqrt st l st2 hl
      exact ih st2 st1 h (hct ▸ hrest) (hstep st l st2 hle hl hp)

/-- The C3 property of one aggregation outcome: on success, at every grid
index the RC and autonomous accumulators sum to at most their total, for
elapsed time and for travelled distance alike; an aborted run asserts
nothing. -/
def rcAutoBounded : Except PyErr AggState → Prop
  | .ok st => ∀ i,
      (ser st.metaData "time_elapsed_rc").getD i 0
          + (ser st.metaData "time_elapsed_auto").getD i 0
        ≤ (ser st.metaData "time_elapsed_total").getD i 0
      ∧ (ser st.metaData "distance_traveled_rc").getD i 0
          + (ser st.metaData "distance_traveled_auto").getD i 0
        ≤ (ser st.metaData "distance_traveled_total").getD i 0
  | .error _ => True

/-- C3: with non-decreasing timestamps (and `np.sqrt` returning nonnegative
values on the nonnegative inputs it receives), every grid index satisfies
`time_elapsed_rc[i] + time_elapsed_auto[i] ≤ time_elapsed_total[i]` and
`distance_traveled_rc[i] + distance_traveled_auto[i] ≤
distance_traveled_total[i]`: each event's `dt` (and distance) goes to the
RC accumulators when `rc_override` holds, to the autonomous ones when
`is_autonomous` holds and `rc_override` does not, and to neither
otherwise. -/
theorem C3_rc_auto_mutually_exclusive_bound :
    ∀ (sqrt : ℚ → ℚ) (lines : List LogLine),
      (∀ x, 0 ≤ x → 0 ≤ sqrt x) → timesSortedFrom 0 lines →
      rcAutoBounded (parseLines sqrt lines initState) := by
  intro sqrt lines hsqrt hsort
  rcases hp : parseLines sqrt lines initState with e | st1
  · exact trivial
  · have hinv : leInv st1.metaData :=
      parseLines_inv_sorted sqrt (fun st => leInv st.metaData)
        (fun st line st2 hle h hp => stepLine_leInv sqrt st line st2 hsqrt hle h hp)
        lines initState st1 hp hsort leInv_init
    obtain ⟨T, R, A, DT, DR, DA, hT, hR, hA, hDT, hDR, hDA,
      _, _, _, _, hSum, hDSum⟩ := hinv
    show ∀ i, _
    simp only [ser, hT, hR, hA, hDT, hDR, hDA, Option.getD_some]
    exact fun i => ⟨hSum i, hDSum i⟩

/-- Witness for C3 at a concrete input: one RC-mode line then one plain
line, under the identity in place of `np.sqrt`. -/
theorem C3_witness :
    rcAutoBounded (parseLines (fun x => x)
      [⟨1000, .ok [("rc_override", .str "true")]⟩, ⟨2000, .ok []⟩] initState) :=
  C3_rc_auto_mutually_exclusive_bound (fun x => x)
    [⟨1000, .ok [("rc_override", .str "true")]⟩, ⟨2000, .ok []⟩]
    (fun _ h => h) (by constructor <;> norm_num [timesSortedFrom])

/-! ### Lock-step growth of the Series Store -/

theorem accumulate_lenKeys (st : AggState) (dt d : ℚ) :
    lenKeys (accumulate st dt d).metaData = lenKeys st.metaData := by
  unfold accumulate
  dsimp only
  repeat' split
  all_goals simp only [lenKeys_mdAdd]

theorem tickFires_iff (st : AggState) (line : LogLine) :
    tickFires st line = true ↔
      (advanceClock st line).timeSinceAccumulation > TIME_STEP := by
  unfold tickFires advanceClock
  dsimp only
  exact decide_eq_true_iff

theorem stepLine_lenKeys (sqrt : ℚ → ℚ) (st : AggState) (line : LogLine)
    (st1 : AggState) (h : stepLine sqrt st line = .ok st1) :
    lenKeys st1.metaData =
      if tickFires st line = true then
        (lenKeys st.metaData).map fun kv => (kv.1, kv.2 + 1)
      else lenKeys st.metaData := by
  obtain ⟨entry, st3, d, hmsg, hkv, hst⟩ := stepLine_ok_cases sqrt st line st1 h
  obtain ⟨_, f2, _, _, _, _, _⟩ :=
    processKVs_ok sqrt (line.timeMs / 1000) entry
      (maybeTick (advanceClock st line)) 0 st3 d hkv
  subst hst
  rw [accumulate_lenKeys, f2]
  unfold maybeTick
  by_cases hc : (advanceClock st line).timeSinceAccumulation > TIME_STEP
  · rw [if_pos hc]
    have htick : tickFires st line = true := (tickFires_iff st line).mpr hc
    rw [if_pos htick]
    exact lenKeys_gridTick _
  · rw [if_neg hc]
    have htick : ¬ tickFires st line = true := fun hx => hc ((tickFires_iff st line).mp hx)
    rw [if_neg htick]
    rfl

theorem accumulate_tsa (st : AggState) (dt d : ℚ) :
    (accumulate st dt d).timeSinceAccumulation = st.timeSinceAccumulation := rfl

theorem stepLine_tsa (sqrt : ℚ → ℚ) (st : AggState) (line : LogLine)
    (st1 : AggState) (h : stepLine sqrt st line = .ok st1) :
    st1.timeSinceAccumulation =
      if tickFires st line = true then 0
      else st.timeSinceAccumulation + (line.timeMs / 1000 - st.currentTime) := by
  obtain ⟨entry, st3, d, hmsg, hkv, hst⟩ := stepLine_ok_cases sqrt st line st1 h
  obtain ⟨_, _, _, c4, _, _, _⟩ :=
    processKVs_ok sqrt (line.timeMs / 1000) entry
      (maybeTick (advanceClock st line)) 0 st3 d hkv
  subst hst
  rw [accumulate_tsa, c4]
  unfold maybeTick
  by_cases hc : (advanceClock st line).timeSinceAccumulation > TIME_STEP
  · rw [if_pos hc, if_pos ((tickFires_iff st line).mpr hc)]
  · rw [if_neg hc, if_neg (fun hx => hc ((tickFires_iff st line).mp hx))]
    rfl

/-- All series of a store have the same length. -/
def allSameLen (md : List (String × List ℚ)) : Prop :=
  ∀ kv ∈ md, ∀ kv2 ∈ md, kv.2.length = kv2.2.length

theorem allSameLen_of_lenKeys (md md2 : List (String × List ℚ))
    (h : lenKeys md2 = lenKeys md) (ha : allSameLen md) : allSameLen md2 := by
  intro kv hkv kv2 hkv2
  have h1 : (kv.1, kv.2.length) ∈ lenKeys md := h ▸ List.mem_map_of_mem _ hkv
  have h2 : (kv2.1, kv2.2.length) ∈ lenKeys md := h ▸ List.mem_map_of_mem _ hkv2
  obtain ⟨a, ha1, ha2⟩ := List.mem_map.mp h1
  obtain ⟨b, hb1, hb2⟩ := List.mem_map.mp h2
  have hab : a.2.length = b.2.length := ha a ha1 b hb1
  have e1 : a.2.length = kv.2.length := congrArg Prod.snd ha2
  have e2 : b.2.length = kv2.2.length := congrArg Prod.snd hb2
  omega

theorem allSameLen_of_bump (md md2 : List (String × List ℚ))
    (h : lenKeys md2 = (lenKeys md).map fun kv => (kv.1, kv.2 + 1))
    (ha : allSameLen md) : allSameLen md2 := by
  intro kv hkv kv2 hkv2
  have h1 : (kv.1, kv.2.length) ∈ (lenKeys md).map (fun kv => (kv.1, kv.2 + 1)) :=
    h ▸ List.mem_map_of_mem _ hkv
  have h2 : (kv2.1, kv2.2.length) ∈ (lenKeys md).map (fun kv => (kv.1, kv.2 + 1)) :=
    h ▸ List.mem_map_of_mem _ hkv2
  obtain ⟨p, hp1, hp2⟩ := List.mem_map.mp h1
  obtain ⟨q, hq1, hq2⟩ := List.mem_map.mp h2
  obtain ⟨a, ha1, ha2⟩ := List.mem_map.mp hp1
  obtain ⟨b, hb1, hb2⟩ := List.mem_map.mp hq1
  have hab : a.2.length = b.2.length := ha a ha1 b hb1
  have e1 : p.2 + 1 = kv.2.length := congrArg Prod.snd hp2
  have e2 : q.2 + 1 = kv2.2.length := congrArg Prod.snd hq2
  have e3 : a.2.length = p.2 := congrArg Prod.snd ha2
  have e4 : b.2.length = q.2 := congrArg Prod.snd hb2
  omega

theorem stepLine_allSameLen (sqrt : ℚ → ℚ) (st : AggState) (line : LogLine)
    (st1 : AggState) (h : stepLine sqrt st line = .ok st1)
    (ha : allSameLen st.metaData) : allSameLen st1.metaData := by
  have hk := stepLine_lenKeys sqrt st line st1 h
  by_cases hc : tickFires st line = true
  · rw [if_pos hc] at hk
    exact allSameLen_of_bump _ _ hk ha
  · rw [if_neg hc] at hk
    exact allSameLen_of_lenKeys _ _ hk ha

/-- The per-event effect on the name/length view of the Series Store: a
firing grid tick lengthens every series by exactly one; otherwise all
lengths are untouched; an aborted line asserts nothing. -/
def stepLenOutcome (st : AggState) (line : LogLine) :
    Except PyErr AggState → Prop
  | .ok st1 => lenKeys st1.metaData =
      if tickFires st line = true then
        (lenKeys st.metaData).map fun kv => (kv.1, kv.2 + 1)
      else lenKeys st.metaData
  | .error _ => True

/-- The lock-step property of one aggregation outcome: on success all series
have equal length. -/
def lockStepOutcome : Except PyErr AggState → Prop
  | .ok st => allSameLen st.metaData
  | .error _ => True

/-- C1: every series starts with exactly the seed entry `0.0`; each event
appends exactly one carried-forward entry to every series when its grid
tick fires and changes no series' length otherwise; hence after any run all
series of the Series Store have equal length (lock-step growth). -/
theorem C1_lock_step_growth :
    (∀ kv ∈ metaDataInit, kv.2 = [0]) ∧
    (∀ (sqrt : ℚ → ℚ) (st : AggState) (line : LogLine),
      stepLenOutcome st line (stepLine sqrt st line)) ∧
    (∀ (sqrt : ℚ → ℚ) (lines : List LogLine),
      lockStepOutcome (parseLines sqrt lines initState)) := by
  refine ⟨by decide, ?_, ?_⟩
  · intro sqrt st line
    rcases hs : stepLine sqrt st line with e | st1
    · exact trivial
    · exact stepLine_lenKeys sqrt st line st1 hs
  · intro sqrt lines
    rcases hp : parseLines sqrt lines initState with e | st1
    · exact trivial
    · exact parseLines_inv sqrt (fun st => allSameLen st.metaData)
        (fun st line st2 h hp => stepLine_allSameLen sqrt st line st2 h hp)
        lines initState st1 hp (by unfold allSameLen; decide)

/-- The per-event growth bound of C10: the grid-tick accumulator after a
line is zero when the tick fired (a hard reset, not a subtraction of the
step), and otherwise carries the accumulated `dt`; the tick — and with it
the single carried-forward append to every series — fires at most once per
event, however large the time gap. -/
def stepResetOutcome (st : AggState) (line : LogLine) :
    Except PyErr AggState → Prop
  | .ok st1 =>
      lenKeys st1.metaData =
        (if tickFires st line = true then
          (lenKeys st.metaData).map fun kv => (kv.1, kv.2 + 1)
        else lenKeys st.metaData) ∧
      st1.timeSinceAccumulation =
        (if tickFires st line = true then 0
         else st.timeSinceAccumulation + (line.timeMs / 1000 - st.currentTime))
  | .error _ => True

/-- C10: one incoming event appends at most one sample to each series even
when the time gap spans several grid steps, because a firing tick resets
the accumulator to zero instead of subtracting the step size. -/
theorem C10_at_most_one_append_per_event :
    ∀ (sqrt : ℚ → ℚ) (st : AggState) (line : LogLine),
      stepResetOutcome st line (stepLine sqrt st line) := by
  intro sqrt st line
  rcases hs : stepLine sqrt st line with e | st1
  · exact trivial
  · exact ⟨stepLine_lenKeys sqrt st line st1 hs, stepLine_tsa sqrt st line st1 hs⟩

/-! ### The series names of the store (C7) -/

/-- The nineteen series names the code's `meta_data` dictionary holds, in
insertion order. -/
def allSeriesNames : List String :=
  ["time_elapsed_total", "time_elapsed_rc", "time_elapsed_auto",
   "time_elapsed_in_water", "time_elapsed_out_water",
   "distance_traveled_total", "distance_traveled_rc", "distance_traveled_auto",
   "distance_from_home_location", "velocity_over_ground",
   "velocity_surge", "velocity_sway",
   "battery_voltage", "battery_voltage_median", "battery_voltage_drain_rate",
   "cumulative_motor_action_total", "cumulative_motor_action_rc",
   "cumulative_motor_action_auto", "rc_override_switch_count"]

/-- The seventeen series names the spec's output-series list enumerates.
This definition follows the spec's words, not the source, so that the
claim's enumeration can be compared against the store the code builds. -/
def specSeriesNames : List String :=
  ["time_elapsed_total", "time_elapsed_rc", "time_elapsed_auto",
   "time_elapsed_in_water", "time_elapsed_out_water",
   "distance_traveled_total", "distance_traveled_rc", "distance_traveled_auto",
   "distance_from_home_location", "velocity_over_ground",
   "battery_voltage", "battery_voltage_median", "battery_voltage_drain_rate",
   "cumulative_motor_action_total", "cumulative_motor_action_rc",
   "cumulative_motor_action_auto", "rc_override_switch_count"]

theorem stepLine_keys (sqrt : ℚ → ℚ) (st : AggState) (line : LogLine)
    (st1 : AggState) (h : stepLine sqrt st line = .ok st1) :
    st1.metaData.map Prod.fst = st.metaData.map Prod.fst := by
  have hmk : ∀ (md : List (String × List ℚ)),
      md.map Prod.fst = (lenKeys md).map Prod.fst := by
    intro md
    simp [lenKeys, List.map_map, Function.comp]
  have hk := stepLine_lenKeys sqrt st line st1 h
  by_cases hc : tickFires st line = true
  · rw [if_pos hc] at hk
    rw [hmk, hmk, hk, List.map_map]
    rfl
  · rw [if_neg hc] at hk
    rw [hmk, hmk, hk]

/-- The key-set property of one aggregation outcome: on success the store
holds exactly the nineteen series of `meta_data`, in insertion order. -/
def keysOutcome : Except PyErr AggState → Prop
  | .ok st => st.metaData.map Prod.fst = allSeriesNames
  | .error _ => True

/-- C7 (amended): the Series Store holds exactly nineteen series — the
seventeen the spec enumerates plus `velocity_surge` and `velocity_sway` —
no more and no fewer, after any successful run. -/
theorem C7_store_has_nineteen_series :
    metaDataInit.map Prod.fst = allSeriesNames ∧
    (∀ (sqrt : ℚ → ℚ) (lines : List LogLine),
      keysOutcome (parseLines sqrt lines initState)) := by
  refine ⟨by decide, ?_⟩
  intro sqrt lines
  rcases hp : parseLines sqrt lines initState with e | st1
  · exact trivial
  · show st1.metaData.map Prod.fst = allSeriesNames
    have := parseLines_inv sqrt
      (fun st => st.metaData.map Prod.fst = allSeriesNames)
      (fun st line st2 h hp => by
        show st2.metaData.map Prod.fst = allSeriesNames
        rw [stepLine_keys sqrt st line st2 h]
        exact hp)
      lines initState st1 hp (by decide)
    exact this

/-- C7 counterexample: already on the empty log the aggregator's Series
Store holds `velocity_surge` (and `velocity_sway`), which the claim's
seventeen-name enumeration omits — the store has nineteen series, not
seventeen. -/
theorem C7_counterexample :
    parse (fun x => x) [] = .ok metaDataInit ∧
    metaDataInit.map Prod.fst ≠ specSeriesNames ∧
    "velocity_surge" ∈ metaDataInit.map Prod.fst ∧
    "velocity_surge" ∉ specSeriesNames ∧
    "velocity_sway" ∈ metaDataInit.map Prod.fst ∧
    "velocity_sway" ∉ specSeriesNames ∧
    (metaDataInit.map Prod.fst).length = 19 ∧ specSeriesNames.length = 17 :=
  ⟨rfl, by decide, by decide, by decide, by decide, by decide, rfl, rfl⟩

/-! ### Unreachability of the dimension-mismatch error (C9) -/

theorem stepLine_error_ne_dim (sqrt : ℚ → ℚ) (st : AggState) (line : LogLine)
    (e : PyErr) (h : stepLine sqrt st line = .error e) :
    e ≠ .dimensionMismatch := by
  unfold stepLine at h
  dsimp only at h
  rcases hmsg : line.message with raw | entry
  · rw [hmsg] at h
    injection h with h1
    intro hx
    rw [← h1] at hx
    exact PyErr.noConfusion hx
  · rw [hmsg] at h
    dsimp only at h
    rcases hkv : processKVs sqrt (line.timeMs / 1000) entry
        (maybeTick (advanceClock st line)) 0 with e2 | res
    · rw [hkv] at h
      injection h with h1
      subst h1
      rw [processKVs_error sqrt (line.timeMs / 1000) entry _ 0 _ hkv]
      intro hx
      exact PyErr.noConfusion hx
    · obtain ⟨st3, d⟩ := res
      rw [hkv] at h
      dsimp only at h
      exact Except.noConfusion h

theorem parseLines_error_ne_dim (sqrt : ℚ → ℚ) (lines : List LogLine) :
    ∀ (st : AggState) (e : PyErr),
      parseLines sqrt lines st = .error e → e ≠ .dimensionMismatch := by
  induction lines with
  | nil =>
    intro st e h
    exact Except.noConfusion h
  | cons l ls ih =>
    intro st e h
    unfold parseLines at h
    rcases hl : stepLine sqrt st l with e2 | st2
    · rw [hl] at h
      injection h with h1
      subst h1
      exact stepLine_error_ne_dim sqrt st l _ hl
    · rw [hl] at h
      dsimp only at h
      exact ih st2 e h

/-- Truth of "this outcome is not the dimension-mismatch abort". -/
def notDimensionAbort : Except PyErr AggState → Prop
  | .error .dimensionMismatch => False
  | _ => True

/-- C9: the unequal-length branch of `dist` is unreachable — on a pair of
two-element easting/northing collections `dist` always succeeds, and no run
of the aggregator, on any input whatsoever, ends in the dimension-mismatch
error. -/
theorem C9_dimension_mismatch_unreachable :
    (∀ (sqrt : ℚ → ℚ) (a b c d : ℚ), ∃ r, dist sqrt [a, b] [c, d] = .ok r) ∧
    (∀ (sqrt : ℚ → ℚ) (lines : List LogLine),
      notDimensionAbort (parseLines sqrt lines initState)) := by
  constructor
  · intro sqrt a b c d
    exact ⟨_, dist_pair sqrt a b c d⟩
  · intro sqrt lines
    rcases hp : parseLines sqrt lines initState with e | st1
    · have hne := parseLines_error_ne_dim sqrt lines initState e hp
      cases e
      · exact trivial
      · exact hne rfl
      · exact trivial
    · exact trivial

/-! ### Fail-fast on malformed JSON (C8) -/

theorem parseLines_append (sqrt : ℚ → ℚ) (xs ys : List LogLine) :
    ∀ st, parseLines sqrt (xs ++ ys) st =
      match parseLines sqrt xs st with
      | .ok st2 => parseLines sqrt ys st2
      | .error e => .error e := by
  induction xs with
  | nil =>
    intro st
    rfl
  | cons l ls ih =>
    intro st
    rw [List.cons_append]
    simp only [parseLines]
    rcases hl : stepLine sqrt st l with e | st2
    · rfl
    · dsimp only
      exact ih st2

/-- C8: a log line whose JSON payload fails to parse aborts the whole
aggregation with an error carrying the offending raw payload — from any
state, whatever lines follow (they are never processed), and in particular
for a whole run whose prefix before the bad line succeeds no Series Store
of any kind is returned. -/
theorem C8_malformed_payload_fail_fast :
    (∀ (sqrt : ℚ → ℚ) (st : AggState) (t : ℚ) (raw : String)
        (rest : List LogLine),
      parseLines sqrt (⟨t, .error raw⟩ :: rest) st
        = .error (.malformedPayload raw)) ∧
    (∀ (sqrt : ℚ → ℚ) (pre : List LogLine) (t : ℚ) (raw : String)
        (rest : List LogLine),
      (∃ stPre, parseLines sqrt pre initState = .ok stPre) →
      parse sqrt (pre ++ ⟨t, .error raw⟩ :: rest)
        = .error (.malformedPayload raw)) := by
  have h1 : ∀ (sqrt : ℚ → ℚ) (st : AggState) (t : ℚ) (raw : String)
      (rest : List LogLine),
      parseLines sqrt (⟨t, .error raw⟩ :: rest) st
        = .error (.malformedPayload raw) := by
    intro sqrt st t raw rest
    rfl
  refine ⟨h1, ?_⟩
  intro sqrt pre t raw rest hpre
  obtain ⟨stPre, hP⟩ := hpre
  unfold parse
  rw [parseLines_append, hP]
  dsimp only
  rw [h1]
  rfl

/-- Witness for C8 at a concrete input: the empty prefix processes fine and
the malformed line aborts the run with its raw payload. -/
theorem C8_witness :
    parse (fun x => x) ([] ++ ⟨1, .error "not json"⟩ :: [])
      = .error (.malformedPayload "not json") :=
  C8_malformed_payload_fail_fast.2 (fun x => x) [] 1 "not json" []
    ⟨initState, rfl⟩

/-! ### Flag decoding (C4) -/

theorem processKVs_single (sqrt : ℚ → ℚ) (ts : ℚ) (k : String) (v : JVal)
    (st : AggState) (d : ℚ) (st1 : AggState) (d1 : ℚ)
    (h : processKV sqrt ts k v st d = .ok (st1, d1)) :
    processKVs sqrt ts [(k, v)] st d = .ok (st1, d1) := by
  unfold processKVs
  rw [h]
  rfl

theorem processKV_is_autonomous (sqrt : ℚ → ℚ) (ts : ℚ) (v : JVal)
    (st : AggState) (d : ℚ) :
    processKV sqrt ts "is_autonomous" v st d
      = .ok ({ st with isAutonomous := jvalEqStr v "true" }, d) := by
  unfold processKV applyFlags
  dsimp only
  rw [if_neg (by decide : ¬("is_autonomous" : String) = "has_first_gps"),
    if_pos (rfl : ("is_autonomous" : String) = "is_autonomous"),
    if_neg (by decide : ¬("is_autonomous" : String) = "rc_override")]
  rw [if_neg (fun h => absurd h.2 (by decide))]
  rw [if_neg (fun h => absurd h.2 (by decide))]
  dsimp only
  rw [if_neg (by decide : ¬("is_autonomous" : String) = "sensor")]

theorem processKV_rc_override (sqrt : ℚ → ℚ) (ts : ℚ) (v : JVal)
    (st : AggState) (d : ℚ) :
    processKV sqrt ts "rc_override" v st d
      = .ok ({ st with rcOn := jvalEqStr v "true" }, d) := by
  unfold processKV applyFlags
  dsimp only
  rw [if_neg (by decide : ¬("rc_override" : String) = "has_first_gps"),
    if_neg (by decide : ¬("rc_override" : String) = "is_autonomous"),
    if_pos (rfl : ("rc_override" : String) = "rc_override")]
  rw [if_neg (fun h => absurd h.2 (by decide))]
  rw [if_neg (fun h => absurd h.2 (by decide))]
  dsimp only
  rw [if_neg (by decide : ¬("rc_override" : String) = "sensor")]

theorem processKV_has_first_gps (sqrt : ℚ → ℚ) (ts : ℚ) (v : JVal)
    (st : AggState) (d : ℚ) :
    processKV sqrt ts "has_first_gps" v st d
      = .ok ({ st with hasFirstGps := jvalEqStr v "true" }, d) := by
  unfold processKV applyFlags
  dsimp only
  rw [if_pos (rfl : ("has_first_gps" : String) = "has_first_gps"),
    if_neg (by decide : ¬("has_first_gps" : String) = "is_autonomous"),
    if_neg (by decide : ¬("has_first_gps" : String) = "rc_override")]
  rw [if_neg (fun h => absurd h.2 (by decide))]
  rw [if_neg (fun h => absurd h.2 (by decide))]
  dsimp only
  rw [if_neg (by decide : ¬("has_first_gps" : String) = "sensor")]

/-- The flag value one event leaves behind: on success the projected flag
equals `b`; these flag-only lines can never fail. -/
def flagOutcome (f : AggState → Bool) (b : Bool) : Except PyErr AggState → Prop
  | .ok st1 => f st1 = b
  | .error _ => False

/-- After a line whose payload carries none of the flag keys, all three
flags are left exactly as they were. -/
def flagsUnchangedOutcome (st : AggState) : Except PyErr AggState → Prop
  | .ok st1 => st1.isAutonomous = st.isAutonomous ∧ st1.rcOn = st.rcOn
      ∧ st1.hasFirstGps = st.hasFirstGps
  | .error _ => False

theorem stepLine_flag_isAutonomous (sqrt : ℚ → ℚ) (st : AggState) (t : ℚ) (v : JVal) :
    flagOutcome AggState.isAutonomous (jvalEqStr v "true")
      (stepLine sqrt st ⟨t, .ok [("is_autonomous", v)]⟩) := by
  unfold stepLine
  dsimp only
  rw [processKVs_single sqrt (t / 1000) "is_autonomous" v _ 0 _ _
    (processKV_is_autonomous sqrt (t / 1000) v _ 0)]
  exact rfl

theorem stepLine_flag_rcOn (sqrt : ℚ → ℚ) (st : AggState) (t : ℚ) (v : JVal) :
    flagOutcome AggState.rcOn (jvalEqStr v "true")
      (stepLine sqrt st ⟨t, .ok [("rc_override", v)]⟩) := by
  unfold stepLine
  dsimp only
  rw [processKVs_single sqrt (t / 1000) "rc_override" v _ 0 _ _
    (processKV_rc_override sqrt (t / 1000) v _ 0)]
  exact rfl

theorem stepLine_flag_hasFirstGps (sqrt : ℚ → ℚ) (st : AggState) (t : ℚ) (v : JVal) :
    flagOutcome AggState.hasFirstGps (jvalEqStr v "true")
      (stepLine sqrt st ⟨t, .ok [("has_first_gps", v)]⟩) := by
  unfold stepLine
  dsimp only
  rw [processKVs_single sqrt (t / 1000) "has_first_gps" v _ 0 _ _
    (processKV_has_first_gps sqrt (t / 1000) v _ 0)]
  exact rfl

/-- C4 (amended): for the three boolean payload fields, only the literal
JSON string `"true"` sets the corresponding flag to true; any other present
value — including the native booleans `true` and `false` — sets it to
false (`True == "true"` is `False` in Python), and a line without the key
leaves the flag unchanged rather than resetting it; no value makes the
decoder fail. -/
theorem C4_flag_decoding :
    (∀ v : JVal, jvalEqStr v "true" = true ↔ v = .str "true") ∧
    (∀ (sqrt : ℚ → ℚ) (st : AggState) (t : ℚ) (v : JVal),
      flagOutcome AggState.isAutonomous (jvalEqStr v "true")
        (stepLine sqrt st ⟨t, .ok [("is_autonomous", v)]⟩)) ∧
    (∀ (sqrt : ℚ → ℚ) (st : AggState) (t : ℚ) (v : JVal),
      flagOutcome AggState.rcOn (jvalEqStr v "true")
        (stepLine sqrt st ⟨t, .ok [("rc_override", v)]⟩)) ∧
    (∀ (sqrt : ℚ → ℚ) (st : AggState) (t : ℚ) (v : JVal),
      flagOutcome AggState.hasFirstGps (jvalEqStr v "true")
        (stepLine sqrt st ⟨t, .ok [("has_first_gps", v)]⟩)) ∧
    (∀ (sqrt : ℚ → ℚ) (st : AggState) (t : ℚ),
      flagsUnchangedOutcome st (stepLine sqrt st ⟨t, .ok []⟩)) := by
  refine ⟨?_, stepLine_flag_isAutonomous, stepLine_flag_rcOn,
    stepLine_flag_hasFirstGps, ?_⟩
  · intro v
    cases v <;> simp [jvalEqStr]
  · intro sqrt st t
    unfold stepLine
    dsimp only
    have hm := maybeTick_frame (advanceClock st ⟨t, .ok []⟩)
    exact ⟨hm.2.2.2.2.2, hm.2.2.2.2.1, hm.2.2.1⟩

theorem maybeTick_not (st : AggState)
    (h : ¬ st.timeSinceAccumulation > TIME_STEP) : maybeTick st = st := by
  unfold maybeTick
  rw [if_neg h]

theorem stepLine_ok_eq (sqrt : ℚ → ℚ) (st : AggState) (line : LogLine)
    (entry : List (String × JVal)) (st3 : AggState) (d : ℚ)
    (hmsg : line.message = .ok entry)
    (hkv : processKVs sqrt (line.timeMs / 1000) entry
      (maybeTick (advanceClock st line)) 0 = .ok (st3, d)) :
    stepLine sqrt st line
      = .ok (accumulate st3 (line.timeMs / 1000 - st.currentTime) d) := by
  unfold stepLine
  dsimp only
  rw [hmsg]
  dsimp only
  rw [hkv]

theorem parseLines_cons_ok (sqrt : ℚ → ℚ) (l : LogLine) (ls : List LogLine)
    (st st1 : AggState) (h : stepLine sqrt st l = .ok st1) :
    parseLines sqrt (l :: ls) st = parseLines sqrt ls st1 := by
  simp only [parseLines]
  rw [h]

theorem parseLines_one (sqrt : ℚ → ℚ) (l : LogLine) (st st1 : AggState)
    (h : stepLine sqrt st l = .ok st1) :
    parseLines sqrt [l] st = .ok st1 := by
  rw [parseLines_cons_ok sqrt l [] st st1 h]
  rfl

/-- C4 counterexample: a native JSON boolean `true` for `is_autonomous`
leaves the flag false, where the claim predicts true. -/
theorem C4_counterexample :
    (parseLines (fun x => x) [⟨0, .ok [("is_autonomous", .bool true)]⟩]
        initState).map AggState.isAutonomous = .ok false := by
  have hstep := stepLine_ok_eq (fun x => x) initState
      ⟨0, .ok [("is_autonomous", .bool true)]⟩ [("is_autonomous", .bool true)] _ _ rfl
      (by
        rw [maybeTick_not (advanceClock initState ⟨0, .ok [("is_autonomous", .bool true)]⟩)
          (by show ¬ (0:ℚ) + (0 / 1000 - 0) > TIME_STEP; norm_num [TIME_STEP])]
        exact processKVs_single _ _ _ _ _ _ _ _ (processKV_is_autonomous _ _ _ _ _))
  rw [parseLines_one _ _ _ _ hstep]
  rfl


/-! ### Home-pose handling (C5) -/

theorem applyFlags_other (k : String) (v : JVal) (st : AggState)
    (h1 : k ≠ "has_first_gps") (h2 : k ≠ "is_autonomous")
    (h3 : k ≠ "rc_override") : applyFlags k v st = st := by
  unfold applyFlags
  dsimp only
  rw [if_neg h1, if_neg h2, if_neg h3]

theorem processHomePose_set (s : String) (st : AggState) (m0 m1 : String)
    (rest : List String) (hfind : findallFloat s = m0 :: m1 :: rest) :
    processHomePose (.str s) st
      = .ok { st with
          homePose := (floatOfString m0, floatOfString m1)
          currentPose := (floatOfString m0, floatOfString m1) } := by
  unfold processHomePose
  dsimp only
  rw [hfind]

theorem processKV_home_pose_set (sqrt : ℚ → ℚ) (ts : ℚ) (s : String)
    (st : AggState) (m0 m1 : String) (rest : List String)
    (hgps : st.hasFirstGps = true) (hfind : findallFloat s = m0 :: m1 :: rest) :
    processKV sqrt ts "home_pose" (.str s) st 0
      = .ok ({ st with
          homePose := (floatOfString m0, floatOfString m1)
          currentPose := (floatOfString m0, floatOfString m1) }, 0) := by
  unfold processKV
  dsimp only
  rw [applyFlags_other _ _ _ (by decide) (by decide) (by decide)]
  rw [if_neg (fun h => absurd h.2 (by decide))]
  rw [if_pos (⟨hgps, rfl⟩ : st.hasFirstGps = true ∧ ("home_pose" : String) = "home_pose")]
  rw [processHomePose_set s st m0 m1 rest hfind]
  dsimp only
  rw [if_neg (by decide : ¬("home_pose" : String) = "sensor")]

theorem processKV_home_pose_skip (sqrt : ℚ → ℚ) (ts : ℚ) (v : JVal)
    (st : AggState) (d : ℚ) (hgps : st.hasFirstGps = false) :
    processKV sqrt ts "home_pose" v st d = .ok (st, d) := by
  unfold processKV
  dsimp only
  rw [applyFlags_other _ _ _ (by decide) (by decide) (by decide)]
  rw [if_neg (fun h => Bool.noConfusion (hgps.symm.trans h.1))]
  rw [if_neg (fun h => Bool.noConfusion (hgps.symm.trans h.1))]
  dsimp only
  rw [if_neg (by decide : ¬("home_pose" : String) = "sensor")]

/-- C5 (amended): a `home_pose` event is handled only while `has_first_gps`
is true — it then sets the home position to the first two float literals of
the payload string (tolerating surrounding non-numeric text) and resets the
current position to the same value; while `has_first_gps` is false the
event changes nothing. -/
theorem C5_home_pose_first_two_floats_gated :
    (∀ (sqrt : ℚ → ℚ) (ts : ℚ) (st : AggState) (s : String) (m0 m1 : String)
        (rest : List String),
      st.hasFirstGps = true → findallFloat s = m0 :: m1 :: rest →
      processKV sqrt ts "home_pose" (.str s) st 0
        = .ok ({ st with
            homePose := (floatOfString m0, floatOfString m1)
            currentPose := (floatOfString m0, floatOfString m1) }, 0)) ∧
    (∀ (sqrt : ℚ → ℚ) (ts : ℚ) (st : AggState) (v : JVal) (d : ℚ),
      st.hasFirstGps = false →
      processKV sqrt ts "home_pose" v st d = .ok (st, d)) :=
  ⟨fun sqrt ts st s m0 m1 rest hgps hfind =>
      processKV_home_pose_set sqrt ts s st m0 m1 rest hgps hfind,
    fun sqrt ts st v d hgps =>
      processKV_home_pose_skip sqrt ts v st d hgps⟩

/-- Witness for C5 at the spec's boundary string, from a state holding the
first GPS fix. -/
theorem C5_witness :
    processKV (fun x => x) 0 "home_pose"
        (.str "easting=12.5, northing=-3.2 (approx)")
        { initState with hasFirstGps := true } 0
      = .ok ({ { initState with hasFirstGps := true } with
          homePose := (floatOfString "12.5", floatOfString "-3.2")
          currentPose := (floatOfString "12.5", floatOfString "-3.2") }, 0) :=
  C5_home_pose_first_two_floats_gated.1 (fun x => x) 0
    { initState with hasFirstGps := true }
    "easting=12.5, northing=-3.2 (approx)" "12.5" "-3.2" [] rfl rfl

/-- C5 counterexample: the boundary payload string does parse to
`(12.5, -3.2)` by the first-two-floats rule, yet processing the `home_pose`
event from the initial state (no first GPS fix yet) leaves both the home
and the current position at `(0, 0)` — the update is conditioned on
`has_first_gps`, which the claim denies. -/
theorem C5_counterexample :
    findallFloat "easting=12.5, northing=-3.2 (approx)" = ["12.5", "-3.2"] ∧
    floatOfString "12.5" = 25 / 2 ∧
    floatOfString "-3.2" = -(16 / 5) ∧
    (parseLines (fun x => x)
        [⟨0, .ok [("home_pose", .str "easting=12.5, northing=-3.2 (approx)")]⟩]
        initState).map (fun st => (st.homePose, st.currentPose))
      = .ok ((0, 0), (0, 0)) ∧
    ¬ ((25 / 2 : ℚ) = 0 ∧ (-(16 / 5) : ℚ) = 0) := by
  refine ⟨rfl, ?_, ?_, ?_, by norm_num⟩
  · have h : floatOfString "12.5" = ((12 : ℕ) : ℚ) + ((5 : ℕ) : ℚ) / 10 ^ 1 := rfl
    rw [h]
    norm_num
  · have h : floatOfString "-3.2" = -(((3 : ℕ) : ℚ) + ((2 : ℕ) : ℚ) / 10 ^ 1) := rfl
    rw [h]
    norm_num
  · have hstep := stepLine_ok_eq (fun x => x) initState
        ⟨0, .ok [("home_pose", .str "easting=12.5, northing=-3.2 (approx)")]⟩
        [("home_pose", .str "easting=12.5, northing=-3.2 (approx)")] _ _ rfl
        (by
          rw [maybeTick_not (advanceClock initState
              ⟨0, .ok [("home_pose", .str "easting=12.5, northing=-3.2 (approx)")]⟩)
            (by show ¬ (0:ℚ) + (0 / 1000 - 0) > TIME_STEP; norm_num [TIME_STEP])]
          exact processKVs_single _ _ _ _ _ _ _ _
            (processKV_home_pose_skip _ _ _ _ _ rfl))
    rw [parseLines_one _ _ _ _ hstep]
    rfl

/-! ### Drain-rate gating (C6) -/

/-- The drain-rate series is untouched by the end-of-line accumulation step
(lines 221–234): `accumulate` only bumps the eight time/distance series. -/
theorem lookup_accumulate_drain (st : AggState) (dt d : ℚ) :
    (accumulate st dt d).metaData.lookup "battery_voltage_drain_rate"
      = st.metaData.lookup "battery_voltage_drain_rate" := by
  unfold accumulate
  dsimp only
  have hmd3 : ∀ (md2 : List (String × List ℚ)),
      (if st.rcOn = true then
          mdAdd (mdAdd md2 "time_elapsed_rc" dt) "distance_traveled_rc" d
        else if st.isAutonomous = true then
          mdAdd (mdAdd md2 "time_elapsed_auto" dt) "distance_traveled_auto" d
        else md2).lookup "battery_voltage_drain_rate"
      = md2.lookup "battery_voltage_drain_rate" := by
    intro md2
    split
    · rw [lookup_mdAdd_ne _ _ _ _ (by decide), lookup_mdAdd_ne _ _ _ _ (by decide)]
    split
    · rw [lookup_mdAdd_ne _ _ _ _ (by decide), lookup_mdAdd_ne _ _ _ _ (by decide)]
    · rfl
  split
  all_goals rw [lookup_mdAdd_ne _ _ _ _ (by decide), hmd3,
    lookup_mdAdd_ne _ _ _ _ (by decide), lookup_mdAdd_ne _ _ _ _ (by decide)]

theorem accumulate_drain (st : AggState) (dt d : ℚ) :
    ser (accumulate st dt d).metaData "battery_voltage_drain_rate"
      = ser st.metaData "battery_voltage_drain_rate" := by
  unfold ser
  rw [lookup_accumulate_drain]

/-- The last entry of an all-zero series is zero. -/
theorem all_zero_getLastD (l : List ℚ) (h : ∀ x ∈ l, x = 0) :
    l.getLastD 0 = 0 := by
  cases l with
  | nil => rfl
  | cons a t =>
    rw [getLastD_cons_getD]
    have hlt : t.length < (a :: t).length := by simp
    rw [List.getD_eq_getElem (a :: t) 0 hlt]
    exact h _ (List.getElem_mem hlt)

/-- The grid tick only carries the last value forward, so an all-zero
drain-rate series stays all-zero through `maybeTick`. -/
theorem maybeTick_drain_zeros (st : AggState)
    (h : ∀ x ∈ ser st.metaData "battery_voltage_drain_rate", x = 0) :
    ∀ x ∈ ser (maybeTick st).metaData "battery_voltage_drain_rate", x = 0 := by
  unfold maybeTick
  split
  · dsimp only
    intro x hx
    rw [ser_gridTick] at hx
    split at hx
    · rw [List.mem_append] at hx
      rcases hx with hx | hx
      · exact h x hx
      · rw [List.mem_singleton] at hx
        subst hx
        exact all_zero_getLastD _ h
    · exact absurd hx (by simp)
  · exact h

/-- Step preservation for the C6 gate invariant: all entries of the
drain-rate series are zero as long as the gate flag is down. -/
theorem stepLine_drainGate (sqrt : ℚ → ℚ) (st : AggState) (line : LogLine)
    (st1 : AggState) (h : stepLine sqrt st line = .ok st1)
    (hP : st.voltageDrainRateReady = false →
      ∀ x ∈ ser st.metaData "battery_voltage_drain_rate", x = 0) :
    st1.voltageDrainRateReady = false →
      ∀ x ∈ ser st1.metaData "battery_voltage_drain_rate", x = 0 := by
  intro hr1
  obtain ⟨entry, st3, d, hmsg, hkv, hst⟩ := stepLine_ok_cases sqrt st line st1 h
  obtain ⟨_, _, _, _, _, _, c7⟩ :=
    processKVs_ok sqrt (line.timeMs / 1000) entry
      (maybeTick (advanceClock st line)) 0 st3 d hkv
  subst hst
  have hr3 : st3.voltageDrainRateReady = false := hr1
  obtain ⟨hser3, hr2⟩ := c7 hr3
  have hrSt : st.voltageDrainRateReady = false :=
    (maybeTick_frame (advanceClock st line)).2.1.symm.trans hr2
  have hzAdv : ∀ x ∈ ser (advanceClock st line).metaData
      "battery_voltage_drain_rate", x = 0 := hP hrSt
  have hzM := maybeTick_drain_zeros (advanceClock st line) hzAdv
  intro x hx
  rw [accumulate_drain, hser3] at hx
  exact hzM x hx

/-- The C6 gating property of one aggregation outcome: on success, if the
regression gate never opened then the drain-rate series still holds only
zeros — it was never updated; an aborted run asserts nothing. -/
def drainGateOutcome : Except PyErr AggState → Prop
  | .ok st => st.voltageDrainRateReady = false →
      ∀ x ∈ ser st.metaData "battery_voltage_drain_rate", x = 0
  | .error _ => True

/-- C6: drain-rate regression gating.  (i) Over any run, while the gate flag
`voltage_drain_rate_initialized` is still down, `battery_voltage_drain_rate`
has never been updated: every entry is the zero placeholder.  (ii) One
BATTERY reading raises the gate flag exactly when it was already up or the
*oldest* slot of the post-push 500-sample voltage window is non-zero — not
when the window has merely received a first genuine sample — and overwrites
the latest drain-rate entry with the OLS slope of the buffered voltages
against their timestamps times 3600 exactly when the post-push flag is up,
leaving the series untouched otherwise. -/
theorem C6_drain_rate_gating :
    (∀ (sqrt : ℚ → ℚ) (lines : List LogLine),
      drainGateOutcome (parseLines sqrt lines initState)) ∧
    (∀ (ts raw : ℚ) (st : AggState),
      (processBattery ts raw st).voltageDrainRateReady
          = (st.voltageDrainRateReady
              || decide ((st.voltageMedianWindow.tail
                  ++ [raw - DANGER_VOLTAGE]).headD 0 ≠ 0)) ∧
      ser (processBattery ts raw st).metaData "battery_voltage_drain_rate"
        = (if (st.voltageDrainRateReady
              || decide ((st.voltageMedianWindow.tail
                  ++ [raw - DANGER_VOLTAGE]).headD 0 ≠ 0)) = true
           then setLast (ser st.metaData "battery_voltage_drain_rate")
              (olsSlope (st.voltageTimeWindow.tail ++ [ts])
                (st.voltageMedianWindow.tail ++ [raw - DANGER_VOLTAGE]) * 3600)
           else ser st.metaData "battery_voltage_drain_rate")) := by
  constructor
  · intro sqrt lines
    rcases hrun : parseLines sqrt lines initState with e | st1
    · exact trivial
    · intro hr
      have hbase : initState.voltageDrainRateReady = false →
          ∀ x ∈ ser initState.metaData "battery_voltage_drain_rate", x = 0 := by
        intro _ x hx
        have h0 : ser initState.metaData "battery_voltage_drain_rate" = [0] := rfl
        rw [h0] at hx
        simpa using hx
      exact parseLines_inv sqrt
        (fun st => st.voltageDrainRateReady = false →
          ∀ x ∈ ser st.metaData "battery_voltage_drain_rate", x = 0)
        (fun st line st1 h hp => stepLine_drainGate sqrt st line st1 h hp)
        lines initState st1 hrun hbase hr
  · exact fun ts raw st => processBattery_drain ts raw st

/-- For the key `"sensor"` (which is none of the flag keys and not GPS
gated), `processKV` is exactly `processSensor`, threading `d` through. -/
theorem processKV_sensor (sqrt : ℚ → ℚ) (ts : ℚ) (v : JVal) (st : AggState)
    (d : ℚ) (st2 : AggState) (h : processSensor ts v st = .ok st2) :
    processKV sqrt ts "sensor" v st d = .ok (st2, d) := by
  unfold processKV
  dsimp only
  rw [applyFlags_other _ _ _ (by decide) (by decide) (by decide)]
  rw [if_neg (fun hc => absurd hc.2 (by decide : ¬("sensor" : String) = "pose"))]
  rw [if_neg (fun hc => absurd hc.2 (by decide : ¬("sensor" : String) = "home_pose"))]
  dsimp only
  rw [if_pos (rfl : ("sensor" : String) = "sensor")]
  rw [h]

/-- A log line carrying one genuine BATTERY reading of 15 V at the
one-second mark. -/
def battLine : LogLine :=
  ⟨1000, .ok [("sensor", .obj [("type", .str "BATTERY"), ("data", .num 15)])]⟩

theorem sum_replicate_zero_append (n : ℕ) (x : ℚ) :
    (List.replicate n (0:ℚ) ++ [x]).sum = x := by simp

theorem sum_sq_replicate_zero_append (n : ℕ) (x : ℚ) :
    ((List.replicate n (0:ℚ) ++ [x]).map (fun t => t * t)).sum = x * x := by simp

theorem sum_zip_replicate_zero_append (n : ℕ) (x : ℚ) :
    (((List.replicate n (0:ℚ) ++ [x]).zip (List.replicate n (0:ℚ) ++ [x])).map
      (fun p => p.1 * p.2)).sum = x * x := by
  induction n with
  | zero => simp
  | succ m ih => simpa [List.replicate_succ] using ih

/-- C6 counterexample: a single genuine BATTERY sample (15 V, i.e. 1 V above
the 14 V danger level) at one second, from the fresh state.  The claim says
that from the first non-placeholder sample onward every BATTERY reading
overwrites the latest drain-rate entry with the OLS slope times 3600 — here
that slope over the post-push windows (499 zero placeholders and the genuine
sample) is 1, so the claim predicts the entry 3600.  The actual run leaves
the drain-rate series at its placeholder `[0]` and the gate flag down: the
gate tests the *oldest* window slot, which is still a placeholder zero. -/
theorem C6_counterexample :
    (parseLines (fun x => x) [battLine] initState).map
        (fun st => (ser st.metaData "battery_voltage_drain_rate",
                    st.voltageDrainRateReady,
                    st.voltageMedianWindow,
                    st.voltageTimeWindow))
      = .ok ([0], false, List.replicate 499 0 ++ [(15:ℚ) - DANGER_VOLTAGE],
          List.replicate 499 0 ++ [(1000:ℚ) / 1000]) ∧
    (15:ℚ) - DANGER_VOLTAGE = 1 ∧
    (1000:ℚ) / 1000 = 1 ∧
    olsSlope (List.replicate 499 (0:ℚ) ++ [1])
        (List.replicate 499 (0:ℚ) ++ [1]) * 3600 = 3600 ∧
    (0:ℚ) ≠ 3600 := by
  refine ⟨?_, by norm_num [DANGER_VOLTAGE], by norm_num, ?_, by norm_num⟩
  · have hsen : processSensor ((1000:ℚ) / 1000)
        (.obj [("type", .str "BATTERY"), ("data", .num 15)])
        (advanceClock initState battLine)
        = .ok (processBattery ((1000:ℚ) / 1000) 15
            (advanceClock initState battLine)) := rfl
    have hstep := stepLine_ok_eq (fun x => x) initState battLine
        [("sensor", .obj [("type", .str "BATTERY"), ("data", .num 15)])] _ _ rfl
        (by
          rw [maybeTick_not (advanceClock initState battLine)
            (by show ¬ (0:ℚ) + (1000 / 1000 - 0) > TIME_STEP; norm_num [TIME_STEP])]
          exact processKVs_single _ _ _ _ _ _ _ _
            (processKV_sensor _ _ _ _ _ _ hsen))
    rw [parseLines_one _ _ _ _ hstep]
    rfl
  · have hlen : (List.replicate 499 (0:ℚ) ++ [1]).length = 500 := by
      rw [List.length_append, List.length_replicate, List.length_singleton]
    unfold olsSlope
    dsimp only
    rw [sum_replicate_zero_append, sum_zip_replicate_zero_append,
      sum_sq_replicate_zero_append, hlen]
    norm_num
